import Mathlib

/-!
# k8s-nfs: the pod reconciler and its helpers

A shallow embedding of `pkg/controller/controller.go` and of `getContainerId`
from `cmd/nfs/main.go`.

* Go strings are Lean `String`s; the few `strings`/`path` functions the code
  calls are re-expressed on the character list.
* The command channel `utils.Exec`, the pod lister, the claim client and
  `os.Stat` are parameters: `exec` threads an arbitrary sibling-process state
  and may answer every command in any way.
* Every call that leaves the controller (a command, an event, a queue
  operation, a reported error) is appended to a log carried in `Run`.
* A Go panic (nil dereference, failed type assertion) is a flag of `Run`.
-/

namespace K8sNfs

/-! ## Go library functions used by the code -/

/-- Go `strings.Contains(s, substr)`. -/
def stringsContains (s substr : String) : Bool :=
  s.toList.tails.any (fun t => substr.toList.isPrefixOf t)

/-- Pieces of a character list around every occurrence of `sep`. -/
def splitChars (sep : Char) : List Char → List (List Char)
  | [] => [[]]
  | c :: cs =>
    if c = sep then [] :: splitChars sep cs
    else
      match splitChars sep cs with
      | [] => [[c]]
      | h :: t => (c :: h) :: t

/-- Go `strings.Split(s, sep)` for a one-character separator. -/
def stringsSplit (s : String) (sep : Char) : List String :=
  (splitChars sep s.toList).map String.mk

/-- Go `strings.TrimLeft(s, cutset)`: drops every leading character that
occurs in `cutset`. -/
def stringsTrimLeft (s cutset : String) : String :=
  String.mk (s.toList.dropWhile (fun c => cutset.toList.contains c))

/-- Go `strings.Replace(s, "/", "\\/", -1)`. -/
def escapeSlashes (s : String) : String :=
  String.mk (s.toList.flatMap (fun c => if c = '/' then ['\\', '/'] else [c]))

/-- The element loop of Go `path.Clean`, on the elements between slashes:
empty and `.` elements are dropped, `..` removes the last kept element, is
dropped at the root, and is kept in front of a relative path. `out` holds the
kept elements, newest first. -/
def cleanSegs (rooted : Bool) : List (List Char) → List (List Char) → List (List Char)
  | [], out => out.reverse
  | seg :: rest, out =>
    if seg = [] ∨ seg = ['.'] then cleanSegs rooted rest out
    else if seg = ['.', '.'] then
      match out with
      | [] => if rooted then cleanSegs rooted rest [] else cleanSegs rooted rest [seg]
      | top :: out1 =>
        if top = ['.', '.'] then cleanSegs rooted rest (seg :: top :: out1)
        else cleanSegs rooted rest out1
    else cleanSegs rooted rest (seg :: out)

/-- Go `path.Clean`. -/
def pathClean (p : String) : String :=
  if p = "" then "."
  else
    let rooted := p.toList.head? = some '/'
    let segs := cleanSegs rooted (splitChars '/' p.toList) []
    let body := String.mk (List.intercalate ['/'] segs)
    if rooted then "/" ++ body
    else if segs = [] then "." else body

/-- The buffer Go `path.Join` builds before cleaning: leading empty elements
are skipped, the others are separated by a slash. -/
def joinBuf : List String → String → String
  | [], buf => buf
  | e :: rest, buf =>
    if buf ≠ "" ∨ e ≠ "" then
      joinBuf rest ((if buf ≠ "" then buf ++ "/" else buf) ++ e)
    else joinBuf rest buf

/-- Go `path.Join`. -/
def pathJoin (elem : List String) : String :=
  if elem.all (fun e => e = "") then "" else pathClean (joinBuf elem "")

/-! ## Data model (the fields of `v1.Pod` the code reads) -/

/-- Go `v1.PersistentVolumeClaimVolumeSource`. -/
structure PersistentVolumeClaimVolumeSource where
  ClaimName : String
  deriving DecidableEq, Repr

/-- Go `v1.Volume`: `PersistentVolumeClaim` is a pointer, `none` is nil. -/
structure Volume where
  Name : String
  PersistentVolumeClaim : Option PersistentVolumeClaimVolumeSource
  deriving DecidableEq, Repr

/-- Go `v1.VolumeMount`. -/
structure VolumeMount where
  Name : String
  MountPath : String
  deriving DecidableEq, Repr

/-- Go `v1.Container`. -/
structure Container where
  VolumeMounts : List VolumeMount
  deriving DecidableEq, Repr

/-- Go `v1.ContainerStatus`. -/
structure ContainerStatus where
  Name : String
  ContainerID : String
  deriving DecidableEq, Repr

/-- Go `v1.Pod`. `Labels` is the label map as an association list,
`DeletionTimestamp` is a pointer (`none` is nil). -/
structure Pod where
  Namespace : String
  Name : String
  UID : String
  Labels : List (String × String)
  DeletionTimestamp : Option Nat
  Phase : String
  Volumes : List Volume
  Containers : List Container
  ContainerStatuses : List ContainerStatus
  deriving DecidableEq, Repr

/-- Go `v1.PersistentVolumeClaim`, reduced to `Spec.VolumeName`. -/
structure PersistentVolumeClaim where
  VolumeName : String
  deriving DecidableEq, Repr

/-- The constants of `controller.go` and `main.go`, and the two
`k8s.io/api/core/v1` constants the code compares and passes on. -/
def controllerAgentName : String := "nfs-controller"
def SuccessSynced : String := "Synced"
def MessageResourceSynced : String := "Add nfs share path success."
def NFSShareLabel : String := "NFSShare"
def PodRunning : String := "Running"
def EventTypeNormal : String := "Normal"
def nfsContainerName : String := "centos-nfs"

/-- Go map read `labels[key]`: the zero value `""` when the key is missing. -/
def labelValue (labels : List (String × String)) (key : String) : String :=
  (labels.lookup key).getD ""

/-- Go map read `_, ok := labels[key]`. -/
def labelPresent (labels : List (String × String)) (key : String) : Bool :=
  (labels.lookup key).isSome

/-! ## The command channel -/

/-- The eight commands the controller sends through `utils.Exec`. -/
inductive Cmd where
  | exportFs
  | mkdir (MountPath : String)
  | hasMount (mountPath : String)
  | mountBind (source target : String)
  | hasNFSItem (nfsItem : String)
  | delNFSItem (nfsItem : String)
  | addNFSItem (nfsItem : String)
  | umount (mountPath : String)
  deriving DecidableEq, Repr

/-- The argument vector each command is sent with. -/
def Cmd.argv : Cmd → List String
  | .exportFs => ["exportfs", "-r"]
  | .mkdir p => ["mkdir", "-p", p]
  | .hasMount p => ["sh", "-c", "mount|grep -w " ++ p]
  | .mountBind s t => ["mount", "-o", "bind", s, t]
  | .hasNFSItem i => ["sh", "-c", "grep -w '" ++ i ++ "' /etc/exports "]
  | .delNFSItem i => ["sh", "-c", "sed -i '/" ++ escapeSlashes i ++ "/d' /etc/exports"]
  | .addNFSItem i => ["sh", "-c", "echo '" ++ i ++ "' >> /etc/exports"]
  | .umount p => ["umount", p]

/-- What `utils.Exec` hands back: the captured output and the error
(`none` is nil). -/
structure ExecResult where
  stdout : String
  combined : String
  err : Option String
  deriving DecidableEq, Repr

/-- A work-queue item (`interface{}`): a string key or anything else. -/
inductive QItem where
  | str (key : String)
  | other (tag : Nat)
  deriving DecidableEq, Repr

/-- Calls that leave the controller, in the order they are made. -/
inductive Action where
  | exec (c : Cmd)
  | event (ns name eventtype reason message : String)
  | handleError (msg : String)
  | queueGet
  | queueDone (obj : QItem)
  | queueForget (obj : QItem)
  | queueAddRateLimited (key : String)
  deriving DecidableEq, Repr

/-- The running controller: the sibling-process state, the log of actions
performed so far (oldest first) and whether a panic is unwinding. -/
structure Run (σ : Type) where
  st : σ
  log : List Action
  panicked : Bool

/-- One `utils.Exec` call: the command is answered by `exec` and logged. -/
def Run.call {σ : Type} (exec : σ → Cmd → σ × ExecResult) (w : Run σ) (c : Cmd) :
    Run σ × ExecResult :=
  let r := exec w.st c
  (⟨r.1, w.log ++ [Action.exec c], w.panicked⟩, r.2)

/-- Appends an action that does not touch the sibling process. -/
def Run.emit {σ : Type} (w : Run σ) (a : Action) : Run σ :=
  ⟨w.st, w.log ++ [a], w.panicked⟩

/-- The run after a panic is raised. -/
def Run.panic {σ : Type} (w : Run σ) : Run σ :=
  ⟨w.st, w.log, true⟩

/-- Method `Controller.ExportFs`: the error and the output are ignored. -/
def ExportFs {σ : Type} (exec : σ → Cmd → σ × ExecResult) (w : Run σ) : Run σ :=
  (w.call exec Cmd.exportFs).1

/-- Method `Controller.Mkdir`: returns the error of the call. -/
def Mkdir {σ : Type} (exec : σ → Cmd → σ × ExecResult) (w : Run σ) (MountPath : String) :
    Run σ × Option String :=
  let r := w.call exec (Cmd.mkdir MountPath)
  (r.1, r.2.err)

/-- Method `Controller.HasMount`: true when the standard output is not empty. -/
def HasMount {σ : Type} (exec : σ → Cmd → σ × ExecResult) (w : Run σ) (mountPath : String) :
    Run σ × Bool :=
  let r := w.call exec (Cmd.hasMount mountPath)
  (r.1, decide (r.2.stdout.length > 0))

/-- Method `Controller.MountBind`: returns the error of the call. -/
def MountBind {σ : Type} (exec : σ → Cmd → σ × ExecResult) (w : Run σ)
    (source target : String) : Run σ × Option String :=
  let r := w.call exec (Cmd.mountBind source target)
  (r.1, r.2.err)

/-- Method `Controller.HasNFSItem`: true when the standard output is not empty. -/
def HasNFSItem {σ : Type} (exec : σ → Cmd → σ × ExecResult) (w : Run σ) (nfsItem : String) :
    Run σ × Bool :=
  let r := w.call exec (Cmd.hasNFSItem nfsItem)
  (r.1, decide (r.2.stdout.length > 0))

/-- Method `Controller.DelNFSItem`: returns the error of the call. -/
def DelNFSItem {σ : Type} (exec : σ → Cmd → σ × ExecResult) (w : Run σ) (nfsItem : String) :
    Run σ × Option String :=
  let r := w.call exec (Cmd.delNFSItem nfsItem)
  (r.1, r.2.err)

/-- Method `Controller.AddNFSItem`: the error is logged and dropped. -/
def AddNFSItem {σ : Type} (exec : σ → Cmd → σ × ExecResult) (w : Run σ) (nfsItem : String) :
    Run σ :=
  (w.call exec (Cmd.addNFSItem nfsItem)).1

/-- Method `Controller.Umount`: returns the error of the call. -/
def Umount {σ : Type} (exec : σ → Cmd → σ × ExecResult) (w : Run σ) (mountPath : String) :
    Run σ × Option String :=
  let r := w.call exec (Cmd.umount mountPath)
  (r.1, r.2.err)

/-- Function `InArray`: linear search for `target`. -/
def InArray (target : String) : List String → Bool
  | [] => false
  | item :: rest => if item = target then true else InArray target rest

/-! ## The collaborators of the reconciler -/

/-- Result of `podLister.Pods(ns).Get(name)`. -/
inductive GetPodResult where
  | found (pod : Pod)
  | notFound
  | failed (err : String)
  deriving DecidableEq, Repr

/-- Result of `os.Stat`, as far as `os.IsNotExist` tells it apart. -/
inductive StatResult where
  | ok
  | notExist
  | failed
  deriving DecidableEq, Repr

/-- The read-only collaborators: the pod cache, the claim client
(`none` is a failed lookup), the host file system, and the text Go's `%q`
verb prints for a string (`strconv.Quote`), which the key parser puts into
its error. -/
structure Env where
  getPod : String → String → GetPodResult
  getPVC : String → String → Option PersistentVolumeClaim
  stat : String → StatResult
  quote : String → String

/-- Go `cache.SplitMetaNamespaceKey`: one part is a name, two parts are
the namespace and the name, anything else is the error
`fmt.Errorf("unexpected key format: %q", key)`; `quote` is the `%q` text. -/
def SplitMetaNamespaceKey (quote : String → String) (key : String) :
    Except String (String × String) :=
  match stringsSplit key '/' with
  | [name] => Except.ok ("", name)
  | [ns, name] => Except.ok (ns, name)
  | _ => Except.error ("unexpected key format: " ++ quote key)

/-! ## `Controller.syncHandler` -/

/-- Lines 193-210: the loop over the declared volumes that derives
`volumePath`. `none` is the nil dereference of line 196, raised when the
volume of that name has no `PersistentVolumeClaim` source. -/
def volumePathLoop (env : Env) (ns podId : String) (vol : VolumeMount) :
    List Volume → String → Option String
  | [], volumePath => some volumePath
  | volSource :: rest, volumePath =>
    if volSource.Name = vol.Name then
      match volSource.PersistentVolumeClaim with
      | none => none
      | some src =>
        match env.getPVC ns src.ClaimName with
        | none => volumePathLoop env ns podId vol rest volumePath
        | some pvc =>
          volumePathLoop env ns podId vol rest
            (pathJoin ["/var/lib/kubelet/pods", podId, "volumes/kubernetes.io~csi",
              pvc.VolumeName, "mount"])
    else volumePathLoop env ns podId vol rest volumePath

/-- Line 223: the export line of a mount path. -/
def nfsItemOf (MountPath : String) : String :=
  MountPath ++ "\t*(rw,sync,fsid=0,no_subtree_check)"

/-- Lines 236-256: the unit carries a deletion timestamp. -/
def teardownDeleted {σ : Type} (exec : σ → Cmd → σ × ExecResult) (w : Run σ)
    (vol : VolumeMount) : Run σ :=
  let r1 := DelNFSItem exec w vol.MountPath
  if r1.2.isSome then r1.1
  else
    let r2 := HasMount exec r1.1 vol.MountPath
    if r2.2 then (Umount exec (ExportFs exec r2.1) vol.MountPath).1
    else r2.1

/-- Lines 267-270: add the export line unless the check finds one. -/
def ensureExport {σ : Type} (exec : σ → Cmd → σ × ExecResult) (w : Run σ)
    (vol : VolumeMount) : Run σ :=
  let r := HasNFSItem exec w vol.MountPath
  if !r.2 then AddNFSItem exec r.1 (nfsItemOf vol.MountPath) else r.1

/-- Lines 258-270: bind unless the check finds a mount, then the export. -/
def createOrMaintain {σ : Type} (exec : σ → Cmd → σ × ExecResult) (w : Run σ)
    (volumePath : String) (vol : VolumeMount) : Run σ :=
  let r1 := HasMount exec w vol.MountPath
  if !r1.2 then
    let r2 := MountBind exec r1.1 volumePath vol.MountPath
    if r2.2.isSome then r2.1 else ensureExport exec r2.1 vol
  else ensureExport exec r1.1 vol

/-- Lines 284-292: unmount when the check finds a mount. -/
def revokeMount {σ : Type} (exec : σ → Cmd → σ × ExecResult) (w : Run σ)
    (vol : VolumeMount) : Run σ :=
  let r := HasMount exec w vol.MountPath
  if r.2 then (Umount exec (ExportFs exec r.1) vol.MountPath).1 else r.1

/-- Lines 274-292: the volume is not named by the label. -/
def revoke {σ : Type} (exec : σ → Cmd → σ × ExecResult) (w : Run σ)
    (vol : VolumeMount) : Run σ :=
  let r1 := HasNFSItem exec w vol.MountPath
  if r1.2 then
    let r2 := DelNFSItem exec r1.1 vol.MountPath
    if r2.2.isSome then r2.1 else revokeMount exec r2.1 vol
  else revokeMount exec r1.1 vol

/-- Lines 227-294: the branch on membership in `shareVolumes`. -/
def applyDirective {σ : Type} (exec : σ → Cmd → σ × ExecResult) (pod : Pod)
    (shareVolumes : List String) (w : Run σ) (volumePath : String) (vol : VolumeMount) :
    Run σ :=
  if InArray vol.Name shareVolumes then
    let r := Mkdir exec w vol.MountPath
    if r.2.isSome then r.1
    else if pod.DeletionTimestamp.isSome then teardownDeleted exec r.1 vol
    else createOrMaintain exec r.1 volumePath vol
  else revoke exec w vol

/-- Lines 186-296: the body of the loop over the volume mounts. -/
def syncVolumeMount {σ : Type} (exec : σ → Cmd → σ × ExecResult) (env : Env)
    (ns : String) (pod : Pod) (shareVolumes : List String) (w : Run σ)
    (vol : VolumeMount) : Run σ :=
  if stringsContains vol.Name "default-token" then w
  else
    match volumePathLoop env ns pod.UID vol pod.Volumes "" with
    | none => w.panic
    | some volumePath =>
      if volumePath = "" then w
      else if env.stat volumePath = StatResult.notExist then w
      else applyDirective exec pod shareVolumes w volumePath vol

/-- Line 186: the loop over the volume mounts of one container; a panic
ends it. -/
def syncVolumeMounts {σ : Type} (exec : σ → Cmd → σ × ExecResult) (env : Env)
    (ns : String) (pod : Pod) (shareVolumes : List String) :
    List VolumeMount → Run σ → Run σ
  | [], w => w
  | vol :: rest, w =>
    let w1 := syncVolumeMount exec env ns pod shareVolumes w vol
    if w1.panicked then w1
    else syncVolumeMounts exec env ns pod shareVolumes rest w1

/-- Line 184: the loop over the containers; a panic ends it. -/
def syncContainers {σ : Type} (exec : σ → Cmd → σ × ExecResult) (env : Env)
    (ns : String) (pod : Pod) (shareVolumes : List String) :
    List Container → Run σ → Run σ
  | [], w => w
  | conItem :: rest, w =>
    let w1 := syncVolumeMounts exec env ns pod shareVolumes conItem.VolumeMounts w
    if w1.panicked then w1
    else syncContainers exec env ns pod shareVolumes rest w1

/-- Lines 181-183: the names listed by the sharing label. -/
def shareVolumesOf (pod : Pod) : List String :=
  stringsSplit (labelValue pod.Labels NFSShareLabel) ','

/-- Method `Controller.syncHandler`: the run afterwards and the returned error
(`none` is nil; no value is returned when the run panicked). -/
def syncHandler {σ : Type} (exec : σ → Cmd → σ × ExecResult) (env : Env) (key : String)
    (w : Run σ) : Run σ × Option String :=
  match SplitMetaNamespaceKey env.quote key with
  | Except.error err => (w.emit (Action.handleError ("invalied resource key :" ++ err)), some err)
  | Except.ok (ns, name) =>
    match env.getPod ns name with
    | GetPodResult.notFound => (w, none)
    | GetPodResult.failed err =>
      (w.emit (Action.handleError ("failed to list pod: " ++ ns ++ "/" ++ name)),
        some err)
    | GetPodResult.found pod =>
      if pod.Phase ≠ PodRunning then (w, none)
      else if pod.Volumes.length = 0 then (w, none)
      else
        let w1 := syncContainers exec env ns pod (shareVolumesOf pod) pod.Containers w
        if w1.panicked then (w1, none)
        else
          ((ExportFs exec w1).emit
            (Action.event pod.Namespace pod.Name EventTypeNormal SuccessSynced
              MessageResourceSynced), none)

/-! ## `Controller.processNextWorkItem` and the delete handler -/

/-- Method `Controller.processNextWorkItem`, given what `workQueue.Get` delivers.
The deferred `Done` runs on every way out of the inner function, a panic
included; the returned Boolean means nothing once the run panicked. -/
def processNextWorkItem {σ : Type} (exec : σ → Cmd → σ × ExecResult) (env : Env)
    (obj : QItem) (shutdown : Bool) (w : Run σ) : Run σ × Bool :=
  let w0 := w.emit Action.queueGet
  if shutdown then (w0, false)
  else
    match obj with
    | QItem.other tag =>
      let w1 := (w0.emit (Action.queueForget (QItem.str ""))).emit
        (Action.handleError "expected string in workqueue but got :\"\"")
      (w1.emit (Action.queueDone (QItem.other tag)), true)
    | QItem.str key =>
      let r := syncHandler exec env key w0
      if r.1.panicked then (r.1.emit (Action.queueDone obj), true)
      else
        match r.2 with
        | some err =>
          ((r.1.emit (Action.queueDone obj)).emit
            (Action.handleError ("error syncing '" ++ key ++ "': " ++ err)), true)
        | none =>
          ((r.1.emit (Action.queueForget obj)).emit (Action.queueDone obj), true)

/-- A notification payload (`interface{}`): a pod, the
`cache.DeletedFinalStateUnknown` wrapper, or an object without metadata. -/
inductive Obj where
  | pod (p : Pod)
  | deletedFinalStateUnknown (Key : String) (Obj : Pod)
  | noMeta
  deriving DecidableEq, Repr

/-- Go `cache.MetaNamespaceKeyFunc` on a pod: the key `<namespace>/<name>`, or
the name alone when the pod has no namespace. -/
def podKey (p : Pod) : String :=
  if p.Namespace.length > 0 then p.Namespace ++ "/" ++ p.Name else p.Name

/-- Go `cache.DeletionHandlingMetaNamespaceKeyFunc`: the wrapper yields its
stored key, everything else goes through `MetaNamespaceKeyFunc`. -/
def DeletionHandlingMetaNamespaceKeyFunc : Obj → Except String String
  | Obj.deletedFinalStateUnknown Key _ => Except.ok Key
  | Obj.pod p => Except.ok (podKey p)
  | Obj.noMeta => Except.error "object has no meta: object does not implement the Object interfaces"

/-- Method `Controller.enqueuePodForDelete`. The assertion `obj.(*v1.Pod)` of line
446 panics on every payload that is not a pod. -/
def enqueuePodForDelete {σ : Type} (obj : Obj) (w : Run σ) : Run σ :=
  match DeletionHandlingMetaNamespaceKeyFunc obj with
  | Except.error err => w.emit (Action.handleError err)
  | Except.ok key =>
    match obj with
    | Obj.pod pod =>
      if labelPresent pod.Labels NFSShareLabel then w.emit (Action.queueAddRateLimited key)
      else w
    | _ => w.panic

/-! ## `getContainerId` (cmd/nfs/main.go) -/

/-- Lines 108-112: the first status named `centos-nfs` decides. -/
def findContainerId : List ContainerStatus → String
  | [] => ""
  | status :: rest =>
    if status.Name = nfsContainerName then stringsTrimLeft status.ContainerID "docker://"
    else findContainerId rest

/-- How `getContainerId` ends: with a value or in `glog.Fatal`. -/
inductive IdResult where
  | value (id : String)
  | fatal (msg : String)
  deriving DecidableEq, Repr

/-- Function `getContainerId`: `podName` and `ns` (the namespace) are the two
environment variables, `kubeClient` is the client (`none` is nil) as its answer to the
pod lookup (an error, or the pod pointer). -/
def getContainerId (podName ns : String)
    (kubeClient : Option (String → String → Except String (Option Pod))) : IdResult :=
  if podName = "" then IdResult.fatal "env pod name not set"
  else if ns = "" then IdResult.fatal "env pod namespace not set"
  else
    match kubeClient with
    | none => IdResult.value ""
    | some client =>
      match client ns podName with
      | Except.error err => IdResult.fatal ("get current pod object fail: " ++ err)
      | Except.ok none => IdResult.value ""
      | Except.ok (some curPod) => IdResult.value (findContainerId curPod.ContainerStatuses)

/-! ## A sample sibling process

The results below that speak about bindings and export entries quantify over
every `exec` that satisfies `ExactSibling`. `tableExec` is one such process,
kept as small as possible, and serves for concrete runs. It is not a model of
the shell commands of `Cmd.argv`: `grep -w` and `sed` match every line that
holds the path as a word or pattern, and `umount` detaches a single binding. -/

/-- Two tables: the mount targets that carry a binding and the lines of
the export file. -/
structure Tables where
  mounts : List String
  exports : List String
  deriving DecidableEq, Repr

/-- Answer of a command that succeeded with the given standard output. -/
def succeeded (out : String) : ExecResult := ⟨out, out, none⟩

/-- The line the mount check of `tableExec` prints for a bound target. -/
def mountLine (target : String) : String := "bind on " ++ target

/-- A process that keeps both tables by exact path: the checks print a line
exactly when the target is in the mount table, respectively when the export
line of the path is in the export table; the bind adds the target, the
unmount removes it, the append adds the line, the removal deletes the export
line of the path; the directory create and the refresh leave both tables
alone. Every command succeeds. -/
def tableExec (t : Tables) : Cmd → Tables × ExecResult
  | Cmd.exportFs => (t, succeeded "")
  | Cmd.mkdir _ => (t, succeeded "")
  | Cmd.hasMount p => (t, succeeded (if p ∈ t.mounts then mountLine p else ""))
  | Cmd.mountBind _ target => (⟨target :: t.mounts, t.exports⟩, succeeded "")
  | Cmd.hasNFSItem p => (t, succeeded (if nfsItemOf p ∈ t.exports then nfsItemOf p else ""))
  | Cmd.delNFSItem p => (⟨t.mounts, t.exports.filter (fun l => l ≠ nfsItemOf p)⟩, succeeded "")
  | Cmd.addNFSItem line => (⟨t.mounts, t.exports ++ [line]⟩, succeeded "")
  | Cmd.umount p => (⟨t.mounts.filter (fun m => m ≠ p), t.exports⟩, succeeded "")

/-- The process `tableExec` with a failing `mkdir`. -/
def mkdirFailsExec (t : Tables) : Cmd → Tables × ExecResult
  | Cmd.mkdir _ => (t, ⟨"", "", some "mkdir: cannot create directory"⟩)
  | c => tableExec t c

/-- Whether `tableExec` holds a binding at the path. -/
def tableBound (t : Tables) (p : String) : Bool := decide (p ∈ t.mounts)

/-- Whether `tableExec` holds the export line of the path. -/
def tableExported (t : Tables) (p : String) : Bool := decide (nfsItemOf p ∈ t.exports)

/-! ## Concrete units used below -/

/-- A running unit whose only volume is not backed by a claim. -/
def emptyDirPod : Pod :=
  { Namespace := "default", Name := "web", UID := "uid-1",
    Labels := [("NFSShare", "cache")], DeletionTimestamp := none, Phase := "Running",
    Volumes := [⟨"scratch", none⟩],
    Containers := [⟨[⟨"scratch", "/data/scratch"⟩]⟩], ContainerStatuses := [] }

/-- A running unit with a claim-backed shared volume and a second volume
that is not backed by a claim. -/
def mixedPod : Pod :=
  { Namespace := "default", Name := "web", UID := "uid-1",
    Labels := [("NFSShare", "cache")], DeletionTimestamp := none, Phase := "Running",
    Volumes := [⟨"cache", some ⟨"cache"⟩⟩, ⟨"config", none⟩],
    Containers := [⟨[⟨"cache", "/data/cache"⟩, ⟨"config", "/etc/config"⟩]⟩],
    ContainerStatuses := [] }

/-- Scenario A of the specification: label `NFSShare=cache`, one volume
`cache` mounted at `/data/cache`. -/
def cachePod : Pod :=
  { Namespace := "default", Name := "web", UID := "uid-1",
    Labels := [("NFSShare", "cache")], DeletionTimestamp := none, Phase := "Running",
    Volumes := [⟨"cache", some ⟨"cache"⟩⟩],
    Containers := [⟨[⟨"cache", "/data/cache"⟩]⟩], ContainerStatuses := [] }

/-- Scenario B: the unit of scenario A with a deletion timestamp. -/
def deletedCachePod : Pod := { cachePod with DeletionTimestamp := some 1 }

/-- The cache holds `pod` under `default/web`, the claim `c` is bound to the
volume `pv-c`, `stat` answers every path with `answer`, and `quote` wraps its
argument in double quotes, which is the `%q` text of a key made of letters,
digits and slashes such as the ones used below. -/
def envOf (pod : Pod) (answer : StatResult) : Env :=
  { getPod := fun ns name =>
      if ns = "default" ∧ name = "web" then GetPodResult.found pod
      else GetPodResult.notFound,
    getPVC := fun _ claim => some ⟨"pv-" ++ claim⟩,
    stat := fun _ => answer,
    quote := fun s => "\"" ++ s ++ "\"" }

/-- A fresh run over the given sibling-process state. -/
def start {σ : Type} (s : σ) : Run σ := ⟨s, [], false⟩

/-- The pod of the controller itself, whose `centos-nfs` container reports
the identifier `id`. -/
def nfsPod (id : String) : Pod :=
  { Namespace := "default", Name := "nfs-0", UID := "uid-0", Labels := [],
    DeletionTimestamp := none, Phase := "Running", Volumes := [], Containers := [],
    ContainerStatuses := [⟨"nfs-controller", "docker://0a1b"⟩, ⟨"centos-nfs", id⟩] }

/-- A unit without the sharing label that mounts a volume with the empty
name. -/
def unnamedVolumePod : Pod :=
  { Namespace := "default", Name := "web", UID := "uid-1",
    Labels := [], DeletionTimestamp := none, Phase := "Running",
    Volumes := [⟨"", some ⟨"cache"⟩⟩],
    Containers := [⟨[⟨"", "/data"⟩]⟩], ContainerStatuses := [] }

/-! ## Definitions used to state the results -/

/-- A proper path element: not empty, not `.` or `..`, without a slash. -/
def pathElement (s : String) : Prop :=
  s ≠ "" ∧ s ≠ "." ∧ s ≠ ".." ∧ '/' ∉ s.toList

/-- The argument vectors of the commands in a log, in order. -/
def argvs (log : List Action) : List (List String) :=
  log.filterMap (fun a => match a with
    | Action.exec c => some c.argv
    | _ => none)

/-- The volume mounts of the unit in the order syncHandler visits them. -/
def allMounts (pod : Pod) : List VolumeMount :=
  pod.Containers.flatMap Container.VolumeMounts

/-- Lines 188-221 as a value: `none` is the panic of line 196, `some none`
a skipped mount, `some (some volumePath)` a mount that reaches line 223. -/
def backing (env : Env) (ns : String) (pod : Pod) (vol : VolumeMount) : Option (Option String) :=
  if stringsContains vol.Name "default-token" then some none
  else
    match volumePathLoop env ns pod.UID vol pod.Volumes "" with
    | none => none
    | some volumePath =>
      if volumePath = "" then some none
      else if env.stat volumePath = StatResult.notExist then some none
      else some (some volumePath)

/-- The commands of a mount that is already converged on a unit without a
deletion timestamp: the directory create and the two checks when the label
names it, the two checks alone when it does not, nothing when it is skipped. -/
def checksOnly (env : Env) (ns : String) (pod : Pod) (vol : VolumeMount) : List Action :=
  match backing env ns pod vol with
  | some (some _) =>
    if InArray vol.Name (shareVolumesOf pod) then
      [Action.exec (Cmd.mkdir vol.MountPath), Action.exec (Cmd.hasMount vol.MountPath),
        Action.exec (Cmd.hasNFSItem vol.MountPath)]
    else [Action.exec (Cmd.hasNFSItem vol.MountPath), Action.exec (Cmd.hasMount vol.MountPath)]
  | _ => []

/-- How a command changes whether the path `p` carries a binding, in a
process that works by exact path: the bind sets it for its target, the unmount
clears it for its target, nothing else touches it. -/
def boundAfter (c : Cmd) (b : Bool) (p : String) : Bool :=
  match c with
  | Cmd.mountBind _ target => if target = p then true else b
  | Cmd.umount target => if target = p then false else b
  | _ => b

/-- How a command changes whether the path `p` has an export entry, in a
process that works by exact path: the append of the export line of `p` sets
it, the removal for `p` clears it, nothing else touches it. -/
def exportedAfter (c : Cmd) (e : Bool) (p : String) : Bool :=
  match c with
  | Cmd.addNFSItem line => if line = nfsItemOf p then true else e
  | Cmd.delNFSItem q => if q = p then false else e
  | _ => e

/-- A sibling process in which every command succeeds and takes effect by
exact path: `bound s p` and `exported s p` say whether the path `p` carries a
binding, respectively has an export entry, in the state `s`; the mount check
prints something exactly when the path is bound, the export check exactly
when it is exported, and every command changes the two as `boundAfter` and
`exportedAfter` say. -/
structure ExactSibling {σ : Type} (exec : σ → Cmd → σ × ExecResult)
    (bound exported : σ → String → Bool) : Prop where
  succeeds : ∀ s c, (exec s c).2.err = none
  mountCheck : ∀ s p, decide ((exec s (Cmd.hasMount p)).2.stdout.length > 0) = bound s p
  exportCheck : ∀ s p, decide ((exec s (Cmd.hasNFSItem p)).2.stdout.length > 0) = exported s p
  boundStep : ∀ s c p, bound (exec s c).1 p = boundAfter c (bound s p) p
  exportedStep : ∀ s c p, exported (exec s c).1 p = exportedAfter c (exported s p) p

/-- The mount is converged when its path is bound (`b`) and exported (`e`)
as follows: a skipped mount always is; a mount that reaches line 223 is when
its path is bound and exported if the label names it and the unit has no
deletion timestamp, and neither bound nor exported otherwise. -/
def settled (env : Env) (ns : String) (pod : Pod) (vol : VolumeMount) (b e : Bool) : Prop :=
  match backing env ns pod vol with
  | some (some _) =>
    if InArray vol.Name (shareVolumesOf pod) = true ∧ pod.DeletionTimestamp = none then
      b = true ∧ e = true
    else b = false ∧ e = false
  | _ => True

/-- The run after a first reconciliation of `key` from the state `s`. -/
def firstPass {σ : Type} (exec : σ → Cmd → σ × ExecResult) (env : Env) (key : String)
    (s : σ) : Run σ :=
  (syncHandler exec env key (start s)).1

/-- The run after reconciling `key` again from the state the first pass
left, with nothing else changed. -/
def secondPass {σ : Type} (exec : σ → Cmd → σ × ExecResult) (env : Env) (key : String)
    (s : σ) : Run σ :=
  (syncHandler exec env key (start (firstPass exec env key s).st)).1

/-- Two containers mount different volumes at the same path; the label
names only the first. -/
def sharedPathPod : Pod :=
  { Namespace := "default", Name := "web", UID := "uid-1",
    Labels := [("NFSShare", "cache")], DeletionTimestamp := none, Phase := "Running",
    Volumes := [⟨"cache", some ⟨"cache"⟩⟩, ⟨"logs", some ⟨"logs"⟩⟩],
    Containers := [⟨[⟨"cache", "/data"⟩]⟩, ⟨[⟨"logs", "/data"⟩]⟩], ContainerStatuses := [] }

/-- Scenario A with the volume, and the label, named `default-token-nfs`. -/
def tokenNamedPod : Pod :=
  { Namespace := "default", Name := "web", UID := "uid-1",
    Labels := [("NFSShare", "default-token-nfs")], DeletionTimestamp := none,
    Phase := "Running",
    Volumes := [⟨"default-token-nfs", some ⟨"cache"⟩⟩],
    Containers := [⟨[⟨"default-token-nfs", "/data/cache"⟩]⟩], ContainerStatuses := [] }

/-! ## Lemmas: `path.Join` -/

theorem splitChars_no_sep (sep : Char) (a : List Char) (h : sep ∉ a) :
    splitChars sep a = [a] := by
  induction a with
  | nil => rfl
  | cons c cs ih =>
    have hc : c ≠ sep := fun e => h (by simp [e])
    have hcs : sep ∉ cs := fun e => h (by simp [e])
    simp [splitChars, hc, ih hcs]

theorem splitChars_append (sep : Char) (a b : List Char) (h : sep ∉ a) :
    splitChars sep (a ++ sep :: b) = a :: splitChars sep b := by
  induction a with
  | nil => simp [splitChars]
  | cons c cs ih =>
    have hc : c ≠ sep := fun e => h (by simp [e])
    have hcs : sep ∉ cs := fun e => h (by simp [e])
    simp [splitChars, hc, ih hcs]

theorem joinBuf_cons (e : String) (rest : List String) (buf : String) (h : buf ≠ "") :
    joinBuf (e :: rest) buf = joinBuf rest (buf ++ "/" ++ e) := by
  simp [joinBuf, h]

theorem append_slash_ne_empty (a e : String) : a ++ "/" ++ e ≠ "" := by
  intro h
  have := congrArg String.data h
  simp at this

theorem pathJoin_csi (uid v : String) (hu : pathElement uid) (hv : pathElement v) :
    pathJoin ["/var/lib/kubelet/pods", uid, "volumes/kubernetes.io~csi", v, "mount"]
      = "/var/lib/kubelet/pods/" ++ uid ++ "/volumes/kubernetes.io~csi/" ++ v ++ "/mount" := by
  obtain ⟨hu1, hu2, hu3, hu4⟩ := hu
  obtain ⟨hv1, hv2, hv3, hv4⟩ := hv
  have hall : (["/var/lib/kubelet/pods", uid, "volumes/kubernetes.io~csi", v, "mount"].all
      (fun e => decide (e = ""))) = false := by
    simp
  have hbuf : joinBuf ["/var/lib/kubelet/pods", uid, "volumes/kubernetes.io~csi", v, "mount"] ""
      = "/var/lib/kubelet/pods" ++ "/" ++ uid ++ "/" ++ "volumes/kubernetes.io~csi" ++ "/" ++ v
          ++ "/" ++ "mount" := by
    have h0 : joinBuf ["/var/lib/kubelet/pods", uid, "volumes/kubernetes.io~csi", v, "mount"] ""
        = joinBuf [uid, "volumes/kubernetes.io~csi", v, "mount"] "/var/lib/kubelet/pods" := by
      simp [joinBuf]
    rw [h0, joinBuf_cons _ _ _ (by decide), joinBuf_cons _ _ _ (append_slash_ne_empty _ _),
      joinBuf_cons _ _ _ (append_slash_ne_empty _ _),
      joinBuf_cons _ _ _ (append_slash_ne_empty _ _)]
    rfl
  have hne : "/var/lib/kubelet/pods" ++ "/" ++ uid ++ "/" ++ "volumes/kubernetes.io~csi" ++ "/" ++ v
          ++ "/" ++ "mount" ≠ "" := append_slash_ne_empty _ _
  have hud : uid.data ≠ [] := fun e => hu1 (String.ext e)
  have hvd : v.data ≠ [] := fun e => hv1 (String.ext e)
  have hud2 : uid.data ≠ ['.'] := fun e => hu2 (String.ext e)
  have hvd2 : v.data ≠ ['.'] := fun e => hv2 (String.ext e)
  have hud3 : uid.data ≠ ['.', '.'] := fun e => hu3 (String.ext e)
  have hvd3 : v.data ≠ ['.', '.'] := fun e => hv3 (String.ext e)
  have hdata : ("/var/lib/kubelet/pods" ++ "/" ++ uid ++ "/" ++ "volumes/kubernetes.io~csi" ++ "/"
      ++ v ++ "/" ++ "mount").toList
      = [] ++ '/' :: ("var".data ++ '/' :: ("lib".data ++ '/' :: ("kubelet".data ++ '/' ::
          ("pods".data ++ '/' :: (uid.data ++ '/' :: ("volumes".data ++ '/' ::
            ("kubernetes.io~csi".data ++ '/' :: (v.data ++ '/' :: "mount".data)))))))) := by
    simp [String.toList, String.data_append]
  have hsplit : splitChars '/' (("/var/lib/kubelet/pods" ++ "/" ++ uid ++ "/"
      ++ "volumes/kubernetes.io~csi" ++ "/" ++ v ++ "/" ++ "mount").toList)
      = [[], "var".data, "lib".data, "kubelet".data, "pods".data, uid.data, "volumes".data,
          "kubernetes.io~csi".data, v.data, "mount".data] := by
    rw [hdata, splitChars_append _ _ _ (by simp), splitChars_append _ _ _ (by decide),
      splitChars_append _ _ _ (by decide), splitChars_append _ _ _ (by decide),
      splitChars_append _ _ _ (by decide), splitChars_append _ uid.data _ hu4,
      splitChars_append _ _ _ (by decide), splitChars_append _ _ _ (by decide),
      splitChars_append _ v.data _ hv4, splitChars_no_sep _ _ (by decide)]
  unfold pathJoin
  rw [hall, hbuf]
  unfold pathClean
  rw [if_neg hne]
  simp only [hsplit]
  have hrooted : (("/var/lib/kubelet/pods" ++ "/" ++ uid ++ "/" ++ "volumes/kubernetes.io~csi" ++ "/"
      ++ v ++ "/" ++ "mount").toList.head? = some '/') := by
    rw [hdata]; rfl
  simp only [hrooted, if_true, decide_True]
  have hclean : cleanSegs true [[], "var".data, "lib".data, "kubelet".data, "pods".data, uid.data,
      "volumes".data, "kubernetes.io~csi".data, v.data, "mount".data] []
      = ["var".data, "lib".data, "kubelet".data, "pods".data, uid.data,
      "volumes".data, "kubernetes.io~csi".data, v.data, "mount".data] := by
    simp [cleanSegs, hud, hud2, hud3, hvd, hvd2, hvd3]
  rw [hclean]
  apply String.ext
  simp [String.data_append, List.intercalate]

/-! ## Lemmas: the loops of `syncHandler` -/

theorem syncVolumeMount_eq_backing {σ : Type} (exec : σ → Cmd → σ × ExecResult) (env : Env)
    (ns : String) (pod : Pod) (shareVolumes : List String) (w : Run σ) (vol : VolumeMount) :
    syncVolumeMount exec env ns pod shareVolumes w vol
      = match backing env ns pod vol with
        | none => w.panic
        | some none => w
        | some (some volumePath) => applyDirective exec pod shareVolumes w volumePath vol := by
  unfold syncVolumeMount backing
  split_ifs with h1
  · rfl
  · cases hl : volumePathLoop env ns pod.UID vol pod.Volumes "" with
    | none => rfl
    | some vp =>
      simp only []
      split_ifs <;> rfl

theorem syncVolumeMounts_append {σ : Type} (exec : σ → Cmd → σ × ExecResult) (env : Env)
    (ns : String) (pod : Pod) (shareVolumes : List String) (l1 l2 : List VolumeMount)
    (w : Run σ) (hw : w.panicked = false) :
    syncVolumeMounts exec env ns pod shareVolumes (l1 ++ l2) w
      = if (syncVolumeMounts exec env ns pod shareVolumes l1 w).panicked
        then syncVolumeMounts exec env ns pod shareVolumes l1 w
        else syncVolumeMounts exec env ns pod shareVolumes l2
          (syncVolumeMounts exec env ns pod shareVolumes l1 w) := by
  induction l1 generalizing w with
  | nil => simp [syncVolumeMounts, hw]
  | cons v rest ih =>
    simp only [List.cons_append, syncVolumeMounts]
    by_cases hp : (syncVolumeMount exec env ns pod shareVolumes w v).panicked = true
    · simp [hp]
    · simp only [hp, if_false]
      exact ih _ (by simpa using hp)

theorem syncContainers_eq_flat {σ : Type} (exec : σ → Cmd → σ × ExecResult) (env : Env)
    (ns : String) (pod : Pod) (shareVolumes : List String) (cs : List Container)
    (w : Run σ) (hw : w.panicked = false) :
    syncContainers exec env ns pod shareVolumes cs w
      = syncVolumeMounts exec env ns pod shareVolumes (cs.flatMap Container.VolumeMounts) w := by
  induction cs generalizing w with
  | nil => simp [syncContainers, syncVolumeMounts]
  | cons c rest ih =>
    simp only [syncContainers, List.flatMap_cons]
    rw [syncVolumeMounts_append _ _ _ _ _ _ _ _ hw]
    by_cases hp : (syncVolumeMounts exec env ns pod shareVolumes c.VolumeMounts w).panicked = true
    · simp [hp]
    · simp only [hp, if_false]
      exact ih _ (by simpa using hp)

theorem syncHandler_found {σ : Type} (exec : σ → Cmd → σ × ExecResult) (env : Env)
    (key ns name : String) (pod : Pod) (w : Run σ)
    (hkey : SplitMetaNamespaceKey env.quote key = Except.ok (ns, name))
    (hpod : env.getPod ns name = GetPodResult.found pod)
    (hrun : pod.Phase = PodRunning) (hvol : pod.Volumes ≠ []) (hw : w.panicked = false) :
    syncHandler exec env key w
      = if (syncVolumeMounts exec env ns pod (shareVolumesOf pod) (allMounts pod) w).panicked
        then (syncVolumeMounts exec env ns pod (shareVolumesOf pod) (allMounts pod) w, none)
        else ((ExportFs exec
            (syncVolumeMounts exec env ns pod (shareVolumesOf pod) (allMounts pod) w)).emit
              (Action.event pod.Namespace pod.Name EventTypeNormal SuccessSynced
                MessageResourceSynced), none) := by
  have hlen : pod.Volumes.length ≠ 0 := by
    intro h; exact hvol (List.length_eq_zero.mp h)
  simp only [syncHandler, hkey, hpod, hrun, hlen, ne_eq, not_true_eq_false, if_false]
  rw [syncContainers_eq_flat _ _ _ _ _ _ _ hw]
  rfl

/-- Whenever syncHandler reaches the loops and no panic is raised, it
returns nil and its last two actions are the refresh and the event. -/
theorem syncHandler_ends_with_refresh_and_event {σ : Type} (exec : σ → Cmd → σ × ExecResult)
    (env : Env) (key ns name : String) (pod : Pod) (w : Run σ)
    (hkey : SplitMetaNamespaceKey env.quote key = Except.ok (ns, name))
    (hpod : env.getPod ns name = GetPodResult.found pod)
    (hrun : pod.Phase = PodRunning) (hvol : pod.Volumes ≠ [])
    (hok : (syncHandler exec env key w).1.panicked = false) :
    (syncHandler exec env key w).2 = none
      ∧ ∃ pre, (syncHandler exec env key w).1.log
          = pre ++ [Action.exec Cmd.exportFs,
              Action.event pod.Namespace pod.Name EventTypeNormal SuccessSynced
                MessageResourceSynced] := by
  have hlen : pod.Volumes.length ≠ 0 := by
    intro h; exact hvol (List.length_eq_zero.mp h)
  simp only [syncHandler, hkey, hpod, hrun, hlen] at hok ⊢
  simp only [ne_eq, not_true_eq_false, if_false] at hok ⊢
  split
  · rename_i h; simp [h] at hok
  · refine ⟨rfl, ?_⟩
    exact ⟨(syncContainers exec env ns pod (shareVolumesOf pod) pod.Containers w).log,
      by simp [Run.emit, ExportFs, Run.call]⟩

theorem volumePathLoop_skip (env : Env) (ns podId : String) (vol : VolumeMount)
    (l : List Volume) (acc : String) (h : ∀ u ∈ l, u.Name ≠ vol.Name) :
    volumePathLoop env ns podId vol l acc = some acc := by
  induction l with
  | nil => rfl
  | cons u rest ih =>
    have hu : u.Name ≠ vol.Name := h u (List.mem_cons_self _ _)
    simp only [volumePathLoop, hu, if_false]
    exact ih (fun x hx => h x (List.mem_cons_of_mem _ hx))

theorem volumePathLoop_unique (env : Env) (ns podId : String) (vol : VolumeMount)
    (pre post : List Volume) (claim : String) (pvc : PersistentVolumeClaim) (acc : String)
    (h : ∀ u ∈ pre ++ post, u.Name ≠ vol.Name) (hpvc : env.getPVC ns claim = some pvc) :
    volumePathLoop env ns podId vol (pre ++ ⟨vol.Name, some ⟨claim⟩⟩ :: post) acc
      = some (pathJoin ["/var/lib/kubelet/pods", podId, "volumes/kubernetes.io~csi",
          pvc.VolumeName, "mount"]) := by
  induction pre generalizing acc with
  | nil =>
    simp only [List.nil_append, volumePathLoop, if_true, hpvc]
    exact volumePathLoop_skip env ns podId vol post _
      (fun u hu => h u (by simpa using hu))
  | cons u rest ih =>
    have hu : u.Name ≠ vol.Name := h u (by simp)
    simp only [List.cons_append, volumePathLoop, hu, if_false]
    exact ih acc (fun x hx => h x (by
      rcases List.mem_append.mp hx with hx | hx
      · simp [hx]
      · simp [hx]))

/-- The nil dereference: when the first declared volume of the mount's name
has no claim source, the loop panics. -/
theorem volumePathLoop_nil_claim (env : Env) (ns podId : String) (vol : VolumeMount)
    (pre post : List Volume) (acc : String) (h : ∀ u ∈ pre, u.Name ≠ vol.Name) :
    volumePathLoop env ns podId vol (pre ++ ⟨vol.Name, none⟩ :: post) acc = none := by
  induction pre with
  | nil => simp [volumePathLoop]
  | cons u rest ih =>
    have hu : u.Name ≠ vol.Name := h u (List.mem_cons_self _ _)
    simp only [List.cons_append, volumePathLoop, hu, if_false]
    exact ih (fun x hx => h x (List.mem_cons_of_mem _ hx))

theorem volumePathLoop_unresolved (env : Env) (ns podId : String) (vol : VolumeMount)
    (l : List Volume) (acc : String)
    (h : ∀ u ∈ l, u.Name = vol.Name →
      ∃ src, u.PersistentVolumeClaim = some src ∧ env.getPVC ns src.ClaimName = none) :
    volumePathLoop env ns podId vol l acc = some acc := by
  induction l with
  | nil => rfl
  | cons u rest ih =>
    have ih2 := ih (fun x hx => h x (List.mem_cons_of_mem _ hx))
    by_cases hu : u.Name = vol.Name
    · obtain ⟨src, h1, h2⟩ := h u (List.mem_cons_self _ _) hu
      simp only [volumePathLoop, hu, if_true, h1, h2]
      exact ih2
    · simp only [volumePathLoop, hu, if_false]
      exact ih2

/-- A mount for which no declared volume has its name, or for which every
declared volume of its name has a claim whose lookup fails, is skipped: no
command, no panic. -/
theorem syncVolumeMount_unresolved {σ : Type} (exec : σ → Cmd → σ × ExecResult) (env : Env)
    (ns : String) (pod : Pod) (shareVolumes : List String) (w : Run σ) (vol : VolumeMount)
    (h : ∀ u ∈ pod.Volumes, u.Name = vol.Name →
      ∃ src, u.PersistentVolumeClaim = some src ∧ env.getPVC ns src.ClaimName = none) :
    syncVolumeMount exec env ns pod shareVolumes w vol = w := by
  unfold syncVolumeMount
  rw [volumePathLoop_unresolved env ns pod.UID vol pod.Volumes "" h]
  split_ifs <;> simp

theorem backing_of_path (env : Env) (ns : String) (pod : Pod) (vol : VolumeMount)
    (volumePath : String)
    (htoken : stringsContains vol.Name "default-token" = false)
    (hpath : volumePathLoop env ns pod.UID vol pod.Volumes "" = some volumePath)
    (hne : volumePath ≠ "")
    (hstat : env.stat volumePath ≠ StatResult.notExist) :
    backing env ns pod vol = some (some volumePath) := by
  simp [backing, htoken, hpath, hne, hstat]

/-! ## Lemmas: sibling processes that work by exact path -/

theorem nfsItemOf_injective (p q : String) (h : nfsItemOf p = nfsItemOf q) : p = q := by
  unfold nfsItemOf at h
  have := congrArg String.data h
  simp only [String.data_append] at this
  exact String.ext (List.append_cancel_right this)

theorem volumeMount_eq (a b : VolumeMount) (hn : a.Name = b.Name) (hp : a.MountPath = b.MountPath) :
    a = b := by
  cases a; cases b; simp_all

/-- The body of the membership branch: it never raises a panic, leaves the
binding and export entry of every other path alone, and converges its own. -/
theorem applyDirective_exact {σ : Type} (exec : σ → Cmd → σ × ExecResult)
    (bound exported : σ → String → Bool) (hex : ExactSibling exec bound exported)
    (pod : Pod) (shareVolumes : List String) (w : Run σ) (volumePath : String)
    (vol : VolumeMount) :
    (applyDirective exec pod shareVolumes w volumePath vol).panicked = w.panicked
      ∧ (∀ p, vol.MountPath ≠ p →
          bound (applyDirective exec pod shareVolumes w volumePath vol).st p = bound w.st p
            ∧ exported (applyDirective exec pod shareVolumes w volumePath vol).st p
              = exported w.st p)
      ∧ (if InArray vol.Name shareVolumes = true ∧ pod.DeletionTimestamp = none then
          bound (applyDirective exec pod shareVolumes w volumePath vol).st vol.MountPath = true
            ∧ exported (applyDirective exec pod shareVolumes w volumePath vol).st vol.MountPath
              = true
        else
          bound (applyDirective exec pod shareVolumes w volumePath vol).st vol.MountPath = false
            ∧ exported (applyDirective exec pod shareVolumes w volumePath vol).st vol.MountPath
              = false) := by
  have hinj : ∀ p, vol.MountPath ≠ p → nfsItemOf vol.MountPath ≠ nfsItemOf p :=
    fun p hp e => hp (nfsItemOf_injective _ _ e)
  simp only [applyDirective, teardownDeleted, createOrMaintain, ensureExport, revoke,
    revokeMount, Mkdir, DelNFSItem, HasMount, HasNFSItem, MountBind, AddNFSItem, Umount, ExportFs,
    Run.call, hex.succeeds, hex.mountCheck, hex.exportCheck, Option.isSome_none,
    Bool.false_eq_true, if_false]
  cases hd : pod.DeletionTimestamp <;> cases hi : InArray vol.Name shareVolumes <;>
    cases hb : bound w.st vol.MountPath <;> cases he : exported w.st vol.MountPath <;>
    simp [hex.boundStep, hex.exportedStep, hex.mountCheck, hex.exportCheck, boundAfter,
      exportedAfter, hb, he] <;>
    intro p hp <;> simp [hp, hinj p hp]

/-- On a converged mount of a unit without a deletion timestamp the
commands are checks only, and no path changes its binding or export entry. -/
theorem applyDirective_converged {σ : Type} (exec : σ → Cmd → σ × ExecResult)
    (bound exported : σ → String → Bool) (hex : ExactSibling exec bound exported)
    (pod : Pod) (shareVolumes : List String) (w : Run σ) (volumePath : String)
    (vol : VolumeMount) (hdel : pod.DeletionTimestamp = none)
    (h : if InArray vol.Name shareVolumes = true ∧ pod.DeletionTimestamp = none then
        bound w.st vol.MountPath = true ∧ exported w.st vol.MountPath = true
      else bound w.st vol.MountPath = false ∧ exported w.st vol.MountPath = false) :
    (applyDirective exec pod shareVolumes w volumePath vol).log
        = w.log ++ (if InArray vol.Name shareVolumes then
            [Action.exec (Cmd.mkdir vol.MountPath), Action.exec (Cmd.hasMount vol.MountPath),
              Action.exec (Cmd.hasNFSItem vol.MountPath)]
          else [Action.exec (Cmd.hasNFSItem vol.MountPath),
            Action.exec (Cmd.hasMount vol.MountPath)])
      ∧ ∀ p, bound (applyDirective exec pod shareVolumes w volumePath vol).st p = bound w.st p
          ∧ exported (applyDirective exec pod shareVolumes w volumePath vol).st p
            = exported w.st p := by
  simp only [applyDirective, teardownDeleted, createOrMaintain, ensureExport, revoke,
    revokeMount, Mkdir, DelNFSItem, HasMount, HasNFSItem, MountBind, AddNFSItem, Umount, ExportFs,
    Run.call, hex.succeeds, hex.mountCheck, hex.exportCheck, Option.isSome_none,
    Bool.false_eq_true, if_false, hdel]
  cases hi : InArray vol.Name shareVolumes <;> simp only [hi, hdel] at h <;>
    simp [hex.boundStep, hex.exportedStep, hex.mountCheck, hex.exportCheck, boundAfter,
      exportedAfter, h.1, h.2]

/-- One mount, whatever happens to it: the other paths keep their binding
and export entry. -/
theorem syncVolumeMount_other {σ : Type} (exec : σ → Cmd → σ × ExecResult)
    (bound exported : σ → String → Bool) (hex : ExactSibling exec bound exported)
    (env : Env) (ns : String) (pod : Pod) (shareVolumes : List String) (w : Run σ)
    (vol : VolumeMount) (p : String) (hp : vol.MountPath ≠ p) :
    bound (syncVolumeMount exec env ns pod shareVolumes w vol).st p = bound w.st p
      ∧ exported (syncVolumeMount exec env ns pod shareVolumes w vol).st p = exported w.st p := by
  rw [syncVolumeMount_eq_backing]
  cases hb : backing env ns pod vol with
  | none => simp [Run.panic]
  | some o =>
    cases o with
    | none => simp
    | some vp =>
      exact (applyDirective_exact exec bound exported hex pod shareVolumes w vp vol).2.1 p hp

theorem syncVolumeMounts_other {σ : Type} (exec : σ → Cmd → σ × ExecResult)
    (bound exported : σ → String → Bool) (hex : ExactSibling exec bound exported)
    (env : Env) (ns : String) (pod : Pod) (shareVolumes : List String) (l : List VolumeMount)
    (w : Run σ) (p : String) (hp : ∀ c ∈ l, c.MountPath ≠ p) :
    bound (syncVolumeMounts exec env ns pod shareVolumes l w).st p = bound w.st p
      ∧ exported (syncVolumeMounts exec env ns pod shareVolumes l w).st p = exported w.st p := by
  induction l generalizing w with
  | nil => simp [syncVolumeMounts]
  | cons b rest ih =>
    have hb := syncVolumeMount_other exec bound exported hex env ns pod shareVolumes w b p
      (hp b (List.mem_cons_self _ _))
    simp only [syncVolumeMounts]
    split_ifs
    · exact hb
    · have hr := ih (syncVolumeMount exec env ns pod shareVolumes w b)
        (fun c hc => hp c (List.mem_cons_of_mem _ hc))
      exact ⟨hr.1.trans hb.1, hr.2.trans hb.2⟩

theorem syncVolumeMount_panicked {σ : Type} (exec : σ → Cmd → σ × ExecResult)
    (bound exported : σ → String → Bool) (hex : ExactSibling exec bound exported)
    (env : Env) (ns : String) (pod : Pod) (shareVolumes : List String) (w : Run σ)
    (vol : VolumeMount) (hw : w.panicked = false) :
    (syncVolumeMount exec env ns pod shareVolumes w vol).panicked = false
      ↔ backing env ns pod vol ≠ none := by
  rw [syncVolumeMount_eq_backing]
  cases hb : backing env ns pod vol with
  | none => simp [Run.panic]
  | some o =>
    cases o with
    | none => simp [hw]
    | some vp =>
      simp [(applyDirective_exact exec bound exported hex pod shareVolumes w vp vol).1, hw]

/-- After its own commands a mount is converged. -/
theorem syncVolumeMount_settles {σ : Type} (exec : σ → Cmd → σ × ExecResult)
    (bound exported : σ → String → Bool) (hex : ExactSibling exec bound exported)
    (env : Env) (ns : String) (pod : Pod) (w : Run σ) (vol : VolumeMount) :
    settled env ns pod vol
      (bound (syncVolumeMount exec env ns pod (shareVolumesOf pod) w vol).st vol.MountPath)
      (exported (syncVolumeMount exec env ns pod (shareVolumesOf pod) w vol).st
        vol.MountPath) := by
  rw [syncVolumeMount_eq_backing]
  unfold settled
  cases hb : backing env ns pod vol with
  | none => trivial
  | some o =>
    cases o with
    | none => trivial
    | some vp =>
      exact (applyDirective_exact exec bound exported hex pod (shareVolumesOf pod) w vp vol).2.2

/-- After the loop every visited mount whose path no differently named
mount shares is converged. -/
theorem syncVolumeMounts_settles {σ : Type} (exec : σ → Cmd → σ × ExecResult)
    (bound exported : σ → String → Bool) (hex : ExactSibling exec bound exported)
    (env : Env) (ns : String) (pod : Pod) (vol : VolumeMount) (l : List VolumeMount)
    (w : Run σ)
    (hret : (syncVolumeMounts exec env ns pod (shareVolumesOf pod) l w).panicked = false)
    (hmem : vol ∈ l)
    (hpaths : ∀ c ∈ l, c.MountPath = vol.MountPath → c.Name = vol.Name) :
    settled env ns pod vol
      (bound (syncVolumeMounts exec env ns pod (shareVolumesOf pod) l w).st vol.MountPath)
      (exported (syncVolumeMounts exec env ns pod (shareVolumesOf pod) l w).st
        vol.MountPath) := by
  induction l generalizing w with
  | nil => simp at hmem
  | cons b rest ih =>
    simp only [syncVolumeMounts] at hret ⊢
    by_cases hp : (syncVolumeMount exec env ns pod (shareVolumesOf pod) w b).panicked = true
    · simp [hp] at hret
    · have hp2 : (syncVolumeMount exec env ns pod (shareVolumesOf pod) w b).panicked = false := by
        simpa using hp
      simp only [hp2, Bool.false_eq_true, if_false] at hret ⊢
      by_cases hin : vol ∈ rest
      · exact ih _ hret hin (fun c hc => hpaths c (List.mem_cons_of_mem _ hc))
      · have hvb : vol = b := by
          rcases List.mem_cons.mp hmem with h | h
          · exact h
          · exact absurd h hin
        subst hvb
        have hother : ∀ c ∈ rest, c.MountPath ≠ vol.MountPath := by
          intro c hc e
          have hn := hpaths c (List.mem_cons_of_mem _ hc) e
          exact hin (volumeMount_eq c vol hn e ▸ hc)
        have hpres := syncVolumeMounts_other exec bound exported hex env ns pod
          (shareVolumesOf pod) rest
          (syncVolumeMount exec env ns pod (shareVolumesOf pod) w vol) vol.MountPath hother
        rw [hpres.1, hpres.2]
        exact syncVolumeMount_settles exec bound exported hex env ns pod w vol

theorem syncVolumeMounts_backing {σ : Type} (exec : σ → Cmd → σ × ExecResult)
    (bound exported : σ → String → Bool) (hex : ExactSibling exec bound exported)
    (env : Env) (ns : String) (pod : Pod) (shareVolumes : List String) (l : List VolumeMount)
    (w : Run σ) (hw : w.panicked = false)
    (hret : (syncVolumeMounts exec env ns pod shareVolumes l w).panicked = false) :
    ∀ v ∈ l, backing env ns pod v ≠ none := by
  induction l generalizing w with
  | nil => simp
  | cons b rest ih =>
    simp only [syncVolumeMounts] at hret
    by_cases hp : (syncVolumeMount exec env ns pod shareVolumes w b).panicked = true
    · simp [hp] at hret
    · simp only [hp, if_false] at hret
      have hp2 : (syncVolumeMount exec env ns pod shareVolumes w b).panicked = false := by
        simpa using hp
      intro v hv
      rcases List.mem_cons.mp hv with h | h
      · subst h
        exact (syncVolumeMount_panicked exec bound exported hex env ns pod shareVolumes w v
          hw).mp hp2
      · exact ih _ hp2 hret v h

/-- A pass over converged mounts of a unit without a deletion timestamp
sends checks only and changes no binding and no export entry. -/
theorem syncVolumeMounts_converged {σ : Type} (exec : σ → Cmd → σ × ExecResult)
    (bound exported : σ → String → Bool) (hex : ExactSibling exec bound exported)
    (env : Env) (ns : String) (pod : Pod) (l : List VolumeMount) (w : Run σ)
    (hw : w.panicked = false) (hdel : pod.DeletionTimestamp = none)
    (hback : ∀ v ∈ l, backing env ns pod v ≠ none)
    (hset : ∀ v ∈ l, settled env ns pod v (bound w.st v.MountPath) (exported w.st v.MountPath)) :
    (syncVolumeMounts exec env ns pod (shareVolumesOf pod) l w).panicked = false
      ∧ (syncVolumeMounts exec env ns pod (shareVolumesOf pod) l w).log
        = w.log ++ l.flatMap (checksOnly env ns pod)
      ∧ ∀ p, bound (syncVolumeMounts exec env ns pod (shareVolumesOf pod) l w).st p = bound w.st p
          ∧ exported (syncVolumeMounts exec env ns pod (shareVolumesOf pod) l w).st p
            = exported w.st p := by
  induction l generalizing w with
  | nil => simp [syncVolumeMounts, hw]
  | cons b rest ih =>
    have hstep : (syncVolumeMount exec env ns pod (shareVolumesOf pod) w b).panicked = false
        ∧ (syncVolumeMount exec env ns pod (shareVolumesOf pod) w b).log
          = w.log ++ checksOnly env ns pod b
        ∧ ∀ p, bound (syncVolumeMount exec env ns pod (shareVolumesOf pod) w b).st p = bound w.st p
            ∧ exported (syncVolumeMount exec env ns pod (shareVolumesOf pod) w b).st p
              = exported w.st p := by
      rw [syncVolumeMount_eq_backing]
      have hb := hback b (List.mem_cons_self _ _)
      have hs := hset b (List.mem_cons_self _ _)
      unfold settled at hs
      unfold checksOnly
      cases hbk : backing env ns pod b with
      | none => exact absurd hbk hb
      | some o =>
        cases o with
        | none => simp [hw]
        | some vp =>
          simp only [hbk] at hs
          have hc := applyDirective_converged exec bound exported hex pod (shareVolumesOf pod)
            w vp b hdel hs
          have hp := (applyDirective_exact exec bound exported hex pod (shareVolumesOf pod)
            w vp b).1
          refine ⟨by simp only [hp, hw], ?_, hc.2⟩
          simp only [hc.1]
    obtain ⟨h1, h2, h3⟩ := hstep
    have hrest := ih (syncVolumeMount exec env ns pod (shareVolumesOf pod) w b) h1
      (fun v hv => hback v (List.mem_cons_of_mem _ hv))
      (fun v hv => by
        rw [(h3 v.MountPath).1, (h3 v.MountPath).2]
        exact hset v (List.mem_cons_of_mem _ hv))
    simp only [syncVolumeMounts, h1, Bool.false_eq_true, if_false]
    refine ⟨hrest.1, ?_, fun p => ⟨((hrest.2.2 p).1).trans (h3 p).1, ((hrest.2.2 p).2).trans (h3 p).2⟩⟩
    rw [hrest.2.1, h2]
    simp

theorem checksOnly_no_create (env : Env) (ns : String) (pod : Pod) (vol : VolumeMount)
    (a : Action) (ha : a ∈ checksOnly env ns pod vol) :
    (∀ s p, a ≠ Action.exec (Cmd.mountBind s p)) ∧ (∀ l, a ≠ Action.exec (Cmd.addNFSItem l)) := by
  refine ⟨fun s p e => ?_, fun l e => ?_⟩ <;> subst e <;> unfold checksOnly at ha <;>
    split at ha <;> (try split_ifs at ha) <;> simp at ha

/-- The final refresh and the event, in a process that works by exact path:
the run after syncHandler, when it returns. -/
theorem syncHandler_exact_returned {σ : Type} (exec : σ → Cmd → σ × ExecResult)
    (bound exported : σ → String → Bool) (hex : ExactSibling exec bound exported)
    (env : Env) (key ns name : String) (pod : Pod) (w : Run σ) (hw : w.panicked = false)
    (hkey : SplitMetaNamespaceKey env.quote key = Except.ok (ns, name))
    (hpod : env.getPod ns name = GetPodResult.found pod)
    (hrun : pod.Phase = PodRunning) (hvol : pod.Volumes ≠ [])
    (hret : (syncHandler exec env key w).1.panicked = false) :
    (syncVolumeMounts exec env ns pod (shareVolumesOf pod) (allMounts pod) w).panicked = false
      ∧ (syncHandler exec env key w).1.log
        = (syncVolumeMounts exec env ns pod (shareVolumesOf pod) (allMounts pod) w).log
            ++ [Action.exec Cmd.exportFs,
                Action.event pod.Namespace pod.Name EventTypeNormal SuccessSynced
                  MessageResourceSynced]
      ∧ ∀ p, bound (syncHandler exec env key w).1.st p
            = bound (syncVolumeMounts exec env ns pod (shareVolumesOf pod) (allMounts pod) w).st p
          ∧ exported (syncHandler exec env key w).1.st p
            = exported (syncVolumeMounts exec env ns pod (shareVolumesOf pod) (allMounts pod)
                w).st p := by
  rw [syncHandler_found exec env key ns name pod w hkey hpod hrun hvol hw] at hret ⊢
  by_cases hp : (syncVolumeMounts exec env ns pod (shareVolumesOf pod) (allMounts pod)
      w).panicked = true
  · simp [hp] at hret
  · have hp2 : (syncVolumeMounts exec env ns pod (shareVolumesOf pod) (allMounts pod)
        w).panicked = false := by simpa using hp
    refine ⟨hp2, ?_, ?_⟩
    · simp [hp2, ExportFs, Run.call, Run.emit]
    · intro p
      simp [hp2, ExportFs, Run.call, Run.emit, hex.boundStep, hex.exportedStep, boundAfter,
        exportedAfter]

/-- The process `tableExec` works by exact path. -/
theorem tableExec_exact : ExactSibling tableExec tableBound tableExported := by
  have hlenM : ∀ p : String, 0 < (mountLine p).length := by
    intro p
    have : 0 < "bind on ".length := by decide
    simp [mountLine, String.length_append, this]
  have hlenE : ∀ p : String, 0 < (nfsItemOf p).length := by
    intro p
    have : 0 < "\t*(rw,sync,fsid=0,no_subtree_check)".length := by decide
    simp [nfsItemOf, String.length_append, this]
  refine ⟨?_, ?_, ?_, ?_, ?_⟩
  · intro s c; cases c <;> rfl
  · intro s p
    by_cases h : p ∈ s.mounts <;> simp [tableExec, succeeded, tableBound, h, hlenM]
  · intro s p
    by_cases h : nfsItemOf p ∈ s.exports <;> simp [tableExec, succeeded, tableExported, h, hlenE]
  · intro s c p
    cases c <;> simp [tableExec, tableBound, boundAfter]
    · rename_i src target
      by_cases h : target = p <;> simp [h, eq_comm]
      · intro e; exact absurd e.symm h
    · rename_i target
      by_cases h : target = p <;> simp [h]
      · intro _ e; exact h e.symm
  · intro s c p
    cases c <;> simp [tableExec, tableExported, exportedAfter]
    · rename_i q
      by_cases h : q = p <;> simp [h]
      · intro _ e; exact h (nfsItemOf_injective _ _ e).symm
    · rename_i line
      by_cases h : line = nfsItemOf p <;> simp [h, eq_comm]

/-- The commands of the deletion branch (lines 229-256), for every sibling
process: `mkdir -p`, then (if it succeeded) the export removal, sent without
a check, then (if it succeeded) the mount check, then (if it found a mount)
the refresh and the unmount. -/
theorem deleted_unit_mount_commands {σ : Type} (exec : σ → Cmd → σ × ExecResult) (env : Env)
    (ns : String) (pod : Pod) (shareVolumes : List String) (w : Run σ) (vol : VolumeMount)
    (volumePath : String)
    (htoken : stringsContains vol.Name "default-token" = false)
    (hpath : volumePathLoop env ns pod.UID vol pod.Volumes "" = some volumePath)
    (hne : volumePath ≠ "")
    (hstat : env.stat volumePath ≠ StatResult.notExist)
    (hshare : InArray vol.Name shareVolumes = true)
    (hdel : pod.DeletionTimestamp.isSome = true) :
    (syncVolumeMount exec env ns pod shareVolumes w vol).log
      = w.log ++ Action.exec (Cmd.mkdir vol.MountPath) ::
          (if (exec w.st (Cmd.mkdir vol.MountPath)).2.err.isSome then []
           else Action.exec (Cmd.delNFSItem vol.MountPath) ::
             (if (exec (exec w.st (Cmd.mkdir vol.MountPath)).1
                    (Cmd.delNFSItem vol.MountPath)).2.err.isSome then []
              else Action.exec (Cmd.hasMount vol.MountPath) ::
                (if (exec (exec (exec w.st (Cmd.mkdir vol.MountPath)).1
                        (Cmd.delNFSItem vol.MountPath)).1
                      (Cmd.hasMount vol.MountPath)).2.stdout.length > 0
                 then [Action.exec Cmd.exportFs, Action.exec (Cmd.umount vol.MountPath)]
                 else []))) := by
  simp only [syncVolumeMount, htoken, hpath, hne, hstat, applyDirective, hshare, hdel,
    teardownDeleted, Mkdir, DelNFSItem, HasMount, Umount, ExportFs, Run.call]
  split_ifs <;> simp_all

/-! ## The results -/

/-- C1 (counterexample): the backing path of scenario A is reported
missing while the path is already bound and exported; syncHandler returns,
the mount was skipped, and the path is bound and exported although its
backing path does not exist. -/
theorem missing_backing_path_stays_bound :
    cachePod.Phase = PodRunning
      ∧ stringsContains "cache" "default-token" = false
      ∧ (syncHandler tableExec (envOf cachePod StatResult.notExist) "default/web"
          (start ⟨["/data/cache"], [nfsItemOf "/data/cache"]⟩)).1.panicked = false
      ∧ ¬ (("/data/cache" ∈ (syncHandler tableExec (envOf cachePod StatResult.notExist)
              "default/web" (start ⟨["/data/cache"], [nfsItemOf "/data/cache"]⟩)).1.st.mounts
            ∧ nfsItemOf "/data/cache" ∈ (syncHandler tableExec
              (envOf cachePod StatResult.notExist) "default/web"
              (start ⟨["/data/cache"], [nfsItemOf "/data/cache"]⟩)).1.st.exports)
          ↔ (InArray "cache" (shareVolumesOf cachePod) = true
            ∧ cachePod.DeletionTimestamp = none
            ∧ (envOf cachePod StatResult.notExist).stat
                "/var/lib/kubelet/pods/uid-1/volumes/kubernetes.io~csi/pv-cache/mount"
              = StatResult.ok)) := by
  decide

/-- C1 (amended): in every sibling process that works by exact path, for a
running unit with a volume and a mount of it whose name does not contain
`default-token`, whose backing path is resolved and not reported missing, and
whose mount path no differently named mount of the unit uses: after
syncHandler returns, from any state of the process, the path is bound and
exported iff the label names the volume and the unit has no deletion
timestamp. -/
theorem bound_and_exported_iff {σ : Type} (exec : σ → Cmd → σ × ExecResult)
    (bound exported : σ → String → Bool) (hex : ExactSibling exec bound exported)
    (env : Env) (key ns name : String) (pod : Pod) (s : σ)
    (vol : VolumeMount) (volumePath : String)
    (hkey : SplitMetaNamespaceKey env.quote key = Except.ok (ns, name))
    (hpod : env.getPod ns name = GetPodResult.found pod)
    (hrun : pod.Phase = PodRunning) (hvol : pod.Volumes ≠ [])
    (hmem : vol ∈ allMounts pod)
    (htoken : stringsContains vol.Name "default-token" = false)
    (hpath : volumePathLoop env ns pod.UID vol pod.Volumes "" = some volumePath)
    (hne : volumePath ≠ "")
    (hstat : env.stat volumePath ≠ StatResult.notExist)
    (hpaths : ∀ c ∈ allMounts pod, c.MountPath = vol.MountPath → c.Name = vol.Name)
    (hret : (syncHandler exec env key (start s)).1.panicked = false) :
    (bound (syncHandler exec env key (start s)).1.st vol.MountPath = true
        ∧ exported (syncHandler exec env key (start s)).1.st vol.MountPath = true)
      ↔ (InArray vol.Name (shareVolumesOf pod) = true ∧ pod.DeletionTimestamp = none) := by
  obtain ⟨hp, _, hobs⟩ := syncHandler_exact_returned exec bound exported hex env key ns name pod
    (start s) rfl hkey hpod hrun hvol hret
  have hs := syncVolumeMounts_settles exec bound exported hex env ns pod vol (allMounts pod)
    (start s) hp hmem hpaths
  rw [(hobs vol.MountPath).1, (hobs vol.MountPath).2]
  unfold settled at hs
  rw [backing_of_path env ns pod vol volumePath htoken hpath hne hstat] at hs
  simp only at hs
  split_ifs at hs with hd
  · exact ⟨fun _ => hd, fun _ => hs⟩
  · constructor
    · intro h
      rw [hs.1] at h
      exact absurd h.1 (by decide)
    · exact fun h => absurd h hd

/-- C1 (witness): scenario A on `tableExec`, from empty tables. -/
theorem bound_and_exported_iff_witness :
    (tableBound (syncHandler tableExec (envOf cachePod StatResult.ok) "default/web"
          (start ⟨[], []⟩)).1.st "/data/cache" = true
        ∧ tableExported (syncHandler tableExec (envOf cachePod StatResult.ok) "default/web"
          (start ⟨[], []⟩)).1.st "/data/cache" = true)
      ↔ (InArray "cache" (shareVolumesOf cachePod) = true ∧ cachePod.DeletionTimestamp = none) :=
  bound_and_exported_iff tableExec tableBound tableExported tableExec_exact
    (envOf cachePod StatResult.ok) "default/web" "default" "web" cachePod
    ⟨[], []⟩ ⟨"cache", "/data/cache"⟩
    "/var/lib/kubelet/pods/uid-1/volumes/kubernetes.io~csi/pv-cache/mount"
    rfl rfl (by decide) (by decide) (by decide) (by decide) (by decide)
    (by decide) (by decide) (by decide) (by decide)

/-- C2 (counterexample): the key `a/b/c` does not parse, syncHandler
returns the error, and processNextWorkItem ends without AddRateLimited. -/
theorem processNextWorkItem_drops_failed_key :
    (syncHandler tableExec (envOf cachePod StatResult.ok) "a/b/c"
        ((start ⟨[], []⟩).emit Action.queueGet)).2 = some "unexpected key format: \"a/b/c\""
      ∧ (processNextWorkItem tableExec (envOf cachePod StatResult.ok) (QItem.str "a/b/c") false
          (start ⟨[], []⟩)).1.log
        = [Action.queueGet,
           Action.handleError "invalied resource key :unexpected key format: \"a/b/c\"",
           Action.queueDone (QItem.str "a/b/c"),
           Action.handleError "error syncing 'a/b/c': unexpected key format: \"a/b/c\""]
      ∧ Action.queueAddRateLimited "a/b/c"
          ∉ (processNextWorkItem tableExec (envOf cachePod StatResult.ok) (QItem.str "a/b/c")
              false (start ⟨[], []⟩)).1.log := by
  decide

/-- C2 (amended): when syncHandler returns an error for a key taken from
the queue, processNextWorkItem issues no command, marks the key done, reports
the error and returns true; it calls neither AddRateLimited nor Forget. -/
theorem processNextWorkItem_reports_error_without_requeue {σ : Type}
    (exec : σ → Cmd → σ × ExecResult) (env : Env) (key err : String) (w : Run σ)
    (hw : w.panicked = false)
    (herr : (syncHandler exec env key (w.emit Action.queueGet)).2 = some err) :
    ∃ msg : String,
      processNextWorkItem exec env (QItem.str key) false w
        = (⟨w.st, w.log ++ [Action.queueGet, Action.handleError msg,
              Action.queueDone (QItem.str key),
              Action.handleError ("error syncing '" ++ key ++ "': " ++ err)], false⟩, true) := by
  unfold processNextWorkItem
  unfold syncHandler at herr ⊢
  cases hk : SplitMetaNamespaceKey env.quote key with
  | error e =>
    simp only [hk] at herr ⊢
    simp only [Option.some.injEq] at herr
    subst herr
    exact ⟨"invalied resource key :" ++ e, by simp [Run.emit, hw]⟩
  | ok p =>
    obtain ⟨ns, name⟩ := p
    simp only [hk] at herr ⊢
    cases hp : env.getPod ns name with
    | notFound => simp [hp] at herr
    | failed e =>
      simp only [hp] at herr ⊢
      simp only [Option.some.injEq] at herr
      subst herr
      exact ⟨"failed to list pod: " ++ ns ++ "/" ++ name, by simp [Run.emit, hw]⟩
    | found pod =>
      simp only [hp] at herr
      split_ifs at herr

/-- C2 (witness): the key `a/b/c`. -/
theorem processNextWorkItem_reports_error_without_requeue_witness :
    ∃ msg : String,
      processNextWorkItem tableExec (envOf cachePod StatResult.ok) (QItem.str "a/b/c") false
          (start ⟨[], []⟩)
        = (⟨(start (⟨[], []⟩ : Tables)).st, (start (⟨[], []⟩ : Tables)).log ++ [Action.queueGet,
              Action.handleError msg, Action.queueDone (QItem.str "a/b/c"),
              Action.handleError ("error syncing '" ++ "a/b/c" ++ "': "
                ++ "unexpected key format: \"a/b/c\"")], false⟩, true) :=
  processNextWorkItem_reports_error_without_requeue tableExec (envOf cachePod StatResult.ok)
    "a/b/c" "unexpected key format: \"a/b/c\"" (start ⟨[], []⟩) rfl (by decide)

/-- C3 (code at the failing input): scenario B with the path bound and
exported. The first command for the mount is `mkdir -p`, ahead of the export
removal; and when that `mkdir -p` fails the teardown is abandoned: nothing is
removed or unmounted, the path stays bound and exported, and the refresh and
the event follow all the same. -/
theorem deleted_unit_teardown_waits_for_mkdir :
    deletedCachePod.DeletionTimestamp.isSome = true
      ∧ InArray "cache" (shareVolumesOf deletedCachePod) = true
      ∧ (syncHandler tableExec (envOf deletedCachePod StatResult.ok) "default/web"
          (start ⟨["/data/cache"], ["/data/cache\t*(rw,sync,fsid=0,no_subtree_check)"]⟩)).1.log
        = [Action.exec (Cmd.mkdir "/data/cache"),
           Action.exec (Cmd.delNFSItem "/data/cache"),
           Action.exec (Cmd.hasMount "/data/cache"),
           Action.exec Cmd.exportFs,
           Action.exec (Cmd.umount "/data/cache"),
           Action.exec Cmd.exportFs,
           Action.event "default" "web" "Normal" "Synced" "Add nfs share path success."]
      ∧ (syncHandler mkdirFailsExec (envOf deletedCachePod StatResult.ok) "default/web"
          (start ⟨["/data/cache"], ["/data/cache\t*(rw,sync,fsid=0,no_subtree_check)"]⟩)).1.log
        = [Action.exec (Cmd.mkdir "/data/cache"),
           Action.exec Cmd.exportFs,
           Action.event "default" "web" "Normal" "Synced" "Add nfs share path success."]
      ∧ (syncHandler mkdirFailsExec (envOf deletedCachePod StatResult.ok) "default/web"
          (start ⟨["/data/cache"], ["/data/cache\t*(rw,sync,fsid=0,no_subtree_check)"]⟩)).1.st
        = ⟨["/data/cache"], ["/data/cache\t*(rw,sync,fsid=0,no_subtree_check)"]⟩ := by
  decide

/-- C4 (counterexample): without the label the empty name is a member of
shareVolumes, and a mount with the empty name takes the create path. -/
theorem missing_label_shares_empty_name :
    unnamedVolumePod.Labels.lookup NFSShareLabel = none
      ∧ InArray "" (shareVolumesOf unnamedVolumePod) = true
      ∧ (syncHandler tableExec (envOf unnamedVolumePod StatResult.ok) "default/web"
          (start ⟨[], []⟩)).1.log
        = [Action.exec (Cmd.mkdir "/data"),
           Action.exec (Cmd.hasMount "/data"),
           Action.exec (Cmd.mountBind
             "/var/lib/kubelet/pods/uid-1/volumes/kubernetes.io~csi/pv-cache/mount" "/data"),
           Action.exec (Cmd.hasNFSItem "/data"),
           Action.exec (Cmd.addNFSItem "/data\t*(rw,sync,fsid=0,no_subtree_check)"),
           Action.exec Cmd.exportFs,
           Action.event "default" "web" "Normal" "Synced" "Add nfs share path success."] := by
  decide

/-- C4 (amended): with the label missing or empty, shareVolumes is the
one-element list of the empty name; no non-empty name is a member, and every
mount with a non-empty name that reaches the membership test is revoked. -/
theorem missing_label_revokes_named_mounts (pod : Pod)
    (h : pod.Labels.lookup NFSShareLabel = none ∨ pod.Labels.lookup NFSShareLabel = some "") :
    shareVolumesOf pod = [""]
      ∧ (∀ n : String, n ≠ "" → InArray n (shareVolumesOf pod) = false)
      ∧ InArray "" (shareVolumesOf pod) = true
      ∧ ∀ (σ : Type) (exec : σ → Cmd → σ × ExecResult) (w : Run σ) (volumePath : String)
          (vol : VolumeMount), vol.Name ≠ "" →
          applyDirective exec pod (shareVolumesOf pod) w volumePath vol = revoke exec w vol := by
  have hs : shareVolumesOf pod = [""] := by
    rcases h with h | h <;> simp [shareVolumesOf, labelValue, h] <;> decide
  have hin : ∀ n : String, n ≠ "" → InArray n (shareVolumesOf pod) = false := by
    intro n hn
    rw [hs]
    simp [InArray, Ne.symm hn]
  refine ⟨hs, hin, by rw [hs]; decide, ?_⟩
  intro σ exec w volumePath vol hn
  simp [applyDirective, hin vol.Name hn]

/-- C4 (witness): a unit with no labels at all. -/
theorem missing_label_revokes_named_mounts_witness :
    shareVolumesOf (nfsPod "x") = [""]
      ∧ (∀ n : String, n ≠ "" → InArray n (shareVolumesOf (nfsPod "x")) = false)
      ∧ InArray "" (shareVolumesOf (nfsPod "x")) = true
      ∧ ∀ (σ : Type) (exec : σ → Cmd → σ × ExecResult) (w : Run σ) (volumePath : String)
          (vol : VolumeMount), vol.Name ≠ "" →
          applyDirective exec (nfsPod "x") (shareVolumesOf (nfsPod "x")) w volumePath vol
            = revoke exec w vol :=
  missing_label_revokes_named_mounts (nfsPod "x") (Or.inl (by decide))

/-- C5 (code at the failing input): a mount whose declared volume has no
claim source makes syncHandler panic before any command is issued. -/
theorem syncHandler_panics_on_volume_without_claim :
    (syncHandler tableExec (envOf emptyDirPod StatResult.ok) "default/web" (start ⟨[], []⟩)).1.panicked
        = true
      ∧ (syncHandler tableExec (envOf emptyDirPod StatResult.ok) "default/web"
          (start ⟨[], []⟩)).1.log = [] := by
  decide

/-- C6 (code at the failing input, for every wrapper): the key is
resolved, then the assertion to a pod panics and nothing is enqueued. -/
theorem enqueuePodForDelete_panics_on_wrapper {σ : Type} (Key : String) (p : Pod) (w : Run σ) :
    DeletionHandlingMetaNamespaceKeyFunc (Obj.deletedFinalStateUnknown Key p) = Except.ok Key
      ∧ (enqueuePodForDelete (Obj.deletedFinalStateUnknown Key p) w).panicked = true
      ∧ (enqueuePodForDelete (Obj.deletedFinalStateUnknown Key p) w).log = w.log := by
  simp [DeletionHandlingMetaNamespaceKeyFunc, enqueuePodForDelete, Run.panic]

/-- C7 (code at the failing input): the identifier
`docker://e3b0…b855` comes back without its leading `e`. -/
theorem getContainerId_strips_identifier_characters :
    getContainerId "nfs-0" "default"
        (some (fun _ _ => Except.ok (some (nfsPod
          ("docker://" ++ "e3b0c44298fc1c149afbf4c8996fb92427ae41e4649b934ca495991b7852b855")))))
      = IdResult.value "3b0c44298fc1c149afbf4c8996fb92427ae41e4649b934ca495991b7852b855" := by
  decide

/-- C8 (code at the failing input): after the first mount is bound and
exported the second mount panics; the log ends with the export append, not
with the refresh and the event. -/
theorem syncHandler_panic_skips_refresh_and_event :
    (syncHandler tableExec (envOf mixedPod StatResult.ok) "default/web" (start ⟨[], []⟩)).1.panicked
        = true
      ∧ (syncHandler tableExec (envOf mixedPod StatResult.ok) "default/web" (start ⟨[], []⟩)).1.log
        = [Action.exec (Cmd.mkdir "/data/cache"),
           Action.exec (Cmd.hasMount "/data/cache"),
           Action.exec (Cmd.mountBind
             "/var/lib/kubelet/pods/uid-1/volumes/kubernetes.io~csi/pv-cache/mount" "/data/cache"),
           Action.exec (Cmd.hasNFSItem "/data/cache"),
           Action.exec (Cmd.addNFSItem "/data/cache\t*(rw,sync,fsid=0,no_subtree_check)")] := by
  decide

/-- C9 (counterexample): two containers mount different volumes at
`/data`, only the first is named by the label; the second pass binds and
appends again. -/
theorem shared_path_second_pass_binds_again :
    sharedPathPod.DeletionTimestamp = none
      ∧ (firstPass tableExec (envOf sharedPathPod StatResult.ok) "default/web" ⟨[], []⟩).panicked = false
      ∧ (secondPass tableExec (envOf sharedPathPod StatResult.ok) "default/web" ⟨[], []⟩).log
        = [Action.exec (Cmd.mkdir "/data"),
           Action.exec (Cmd.hasMount "/data"),
           Action.exec (Cmd.mountBind
             "/var/lib/kubelet/pods/uid-1/volumes/kubernetes.io~csi/pv-cache/mount" "/data"),
           Action.exec (Cmd.hasNFSItem "/data"),
           Action.exec (Cmd.addNFSItem "/data\t*(rw,sync,fsid=0,no_subtree_check)"),
           Action.exec (Cmd.hasNFSItem "/data"),
           Action.exec (Cmd.delNFSItem "/data"),
           Action.exec (Cmd.hasMount "/data"),
           Action.exec Cmd.exportFs,
           Action.exec (Cmd.umount "/data"),
           Action.exec Cmd.exportFs,
           Action.event "default" "web" "Normal" "Synced" "Add nfs share path success."] := by
  decide

/-- C9 (amended): in every sibling process that works by exact path, for a
running unit with a volume and without a deletion timestamp in which no two
differently named mounts use the same mount path, once a first pass has
returned, a second pass returns, changes the binding and the export entry of
no path, and sends, mount by mount, only the directory create and the two
checks (the two checks alone for a mount the label does not name, nothing for
a skipped mount), then the refresh and the event; no bind and no export
append. -/
theorem second_pass_checks_only {σ : Type} (exec : σ → Cmd → σ × ExecResult)
    (bound exported : σ → String → Bool) (hex : ExactSibling exec bound exported)
    (env : Env) (key ns name : String) (pod : Pod) (s : σ)
    (hkey : SplitMetaNamespaceKey env.quote key = Except.ok (ns, name))
    (hpod : env.getPod ns name = GetPodResult.found pod)
    (hrun : pod.Phase = PodRunning) (hvol : pod.Volumes ≠ [])
    (hdel : pod.DeletionTimestamp = none)
    (hpaths : ∀ a ∈ allMounts pod, ∀ b ∈ allMounts pod,
      a.MountPath = b.MountPath → a.Name = b.Name)
    (hret : (firstPass exec env key s).panicked = false) :
    (secondPass exec env key s).panicked = false
      ∧ (∀ p, bound (secondPass exec env key s).st p = bound (firstPass exec env key s).st p
          ∧ exported (secondPass exec env key s).st p
            = exported (firstPass exec env key s).st p)
      ∧ (secondPass exec env key s).log
        = (allMounts pod).flatMap (checksOnly env ns pod)
            ++ [Action.exec Cmd.exportFs,
                Action.event pod.Namespace pod.Name EventTypeNormal SuccessSynced
                  MessageResourceSynced]
      ∧ (∀ src p, Action.exec (Cmd.mountBind src p) ∉ (secondPass exec env key s).log)
      ∧ (∀ l, Action.exec (Cmd.addNFSItem l) ∉ (secondPass exec env key s).log) := by
  unfold firstPass at hret
  obtain ⟨hp, _, hobs⟩ := syncHandler_exact_returned exec bound exported hex env key ns name pod
    (start s) rfl hkey hpod hrun hvol hret
  have hback := syncVolumeMounts_backing exec bound exported hex env ns pod (shareVolumesOf pod)
    (allMounts pod) (start s) rfl hp
  have hset : ∀ v ∈ allMounts pod, settled env ns pod v
      (bound (firstPass exec env key s).st v.MountPath)
      (exported (firstPass exec env key s).st v.MountPath) := by
    intro v hv
    unfold firstPass
    rw [(hobs v.MountPath).1, (hobs v.MountPath).2]
    exact syncVolumeMounts_settles exec bound exported hex env ns pod v (allMounts pod) (start s)
      hp hv (fun c hc e => hpaths c hc v hv e)
  obtain ⟨hl1, hl2, hl3⟩ := syncVolumeMounts_converged exec bound exported hex env ns pod
    (allMounts pod) (start (firstPass exec env key s).st) rfl hdel hback hset
  have hfound := syncHandler_found exec env key ns name pod (start (firstPass exec env key s).st)
    hkey hpod hrun hvol rfl
  have hpan : (secondPass exec env key s).panicked = false := by
    unfold secondPass
    rw [hfound]
    simp [hl1, ExportFs, Run.call, Run.emit]
  obtain ⟨_, hlog2, hobs2⟩ := syncHandler_exact_returned exec bound exported hex env key ns name
    pod (start (firstPass exec env key s).st) rfl hkey hpod hrun hvol hpan
  have hlog : (secondPass exec env key s).log
      = (allMounts pod).flatMap (checksOnly env ns pod)
          ++ [Action.exec Cmd.exportFs,
              Action.event pod.Namespace pod.Name EventTypeNormal SuccessSynced
                MessageResourceSynced] := by
    unfold secondPass
    rw [hlog2, hl2]
    simp [start]
  refine ⟨hpan, ?_, hlog, ?_, ?_⟩
  · intro p
    unfold secondPass
    rw [(hobs2 p).1, (hobs2 p).2, (hl3 p).1, (hl3 p).2]
    exact ⟨rfl, rfl⟩
  · intro src p hmem
    rw [hlog] at hmem
    simp only [List.mem_append, List.mem_flatMap] at hmem
    rcases hmem with ⟨v, _, hv⟩ | hmem
    · exact (checksOnly_no_create env ns pod v _ hv).1 src p rfl
    · simp at hmem
  · intro l hmem
    rw [hlog] at hmem
    simp only [List.mem_append, List.mem_flatMap] at hmem
    rcases hmem with ⟨v, _, hv⟩ | hmem
    · exact (checksOnly_no_create env ns pod v _ hv).2 l rfl
    · simp at hmem

/-- C9 (witness): scenario A on `tableExec`, from empty tables. -/
theorem second_pass_checks_only_witness :
    (secondPass tableExec (envOf cachePod StatResult.ok) "default/web" ⟨[], []⟩).panicked = false
      ∧ (∀ p, tableBound (secondPass tableExec (envOf cachePod StatResult.ok) "default/web"
              ⟨[], []⟩).st p
            = tableBound (firstPass tableExec (envOf cachePod StatResult.ok) "default/web"
              ⟨[], []⟩).st p
          ∧ tableExported (secondPass tableExec (envOf cachePod StatResult.ok) "default/web"
              ⟨[], []⟩).st p
            = tableExported (firstPass tableExec (envOf cachePod StatResult.ok) "default/web"
              ⟨[], []⟩).st p)
      ∧ (secondPass tableExec (envOf cachePod StatResult.ok) "default/web" ⟨[], []⟩).log
        = (allMounts cachePod).flatMap (checksOnly (envOf cachePod StatResult.ok) "default" cachePod)
            ++ [Action.exec Cmd.exportFs,
                Action.event cachePod.Namespace cachePod.Name EventTypeNormal SuccessSynced
                  MessageResourceSynced]
      ∧ (∀ src p, Action.exec (Cmd.mountBind src p)
          ∉ (secondPass tableExec (envOf cachePod StatResult.ok) "default/web" ⟨[], []⟩).log)
      ∧ (∀ l, Action.exec (Cmd.addNFSItem l)
          ∉ (secondPass tableExec (envOf cachePod StatResult.ok) "default/web" ⟨[], []⟩).log) :=
  second_pass_checks_only tableExec tableBound tableExported tableExec_exact
    (envOf cachePod StatResult.ok) "default/web" "default" "web" cachePod
    ⟨[], []⟩ rfl rfl (by decide) (by decide) (by decide) (by decide) (by decide)

/-- C10 (counterexample): scenario A with the volume named
`default-token-nfs`: every premise of the scenario holds, and the only
actions are the refresh and the event. -/
theorem token_named_volume_is_skipped :
    tokenNamedPod.Phase = PodRunning
      ∧ tokenNamedPod.DeletionTimestamp = none
      ∧ allMounts tokenNamedPod = [⟨"default-token-nfs", "/data/cache"⟩]
      ∧ InArray "default-token-nfs" (shareVolumesOf tokenNamedPod) = true
      ∧ volumePathLoop (envOf tokenNamedPod StatResult.ok) "default" "uid-1"
          ⟨"default-token-nfs", "/data/cache"⟩ tokenNamedPod.Volumes ""
        = some "/var/lib/kubelet/pods/uid-1/volumes/kubernetes.io~csi/pv-cache/mount"
      ∧ (envOf tokenNamedPod StatResult.ok).stat
          "/var/lib/kubelet/pods/uid-1/volumes/kubernetes.io~csi/pv-cache/mount" = StatResult.ok
      ∧ (syncHandler tableExec (envOf tokenNamedPod StatResult.ok) "default/web"
          (start ⟨[], []⟩)).1.log
        = [Action.exec Cmd.exportFs,
           Action.event "default" "web" "Normal" "Synced" "Add nfs share path success."] := by
  decide

/-- C10 (amended): for every sibling process in which every command
succeeds, and a running unit without a deletion timestamp whose only mount has
a name that the label lists and that does not contain `default-token`, with
one declared volume of that name, its claim bound to a volume, the unit UID
and that volume name proper path elements, the derived path not reported
missing, and the mount check and the export check for the mount path both
printing nothing when they are sent, syncHandler performs exactly: `mkdir -p
P`, the mount check, `mount -o bind S P`, the export check, the append of
`P\t*(rw,sync,fsid=0,no_subtree_check)`, `exportfs -r`, the event; it returns
nil, and the argument vectors sent are the ones listed. -/
theorem scenario_A_sequence {σ : Type} (exec : σ → Cmd → σ × ExecResult)
    (env : Env) (key ns name : String) (pod : Pod) (s : σ)
    (vol : VolumeMount) (pre post : List Volume) (claim : String) (pvc : PersistentVolumeClaim)
    (hkey : SplitMetaNamespaceKey env.quote key = Except.ok (ns, name))
    (hpod : env.getPod ns name = GetPodResult.found pod)
    (hrun : pod.Phase = PodRunning)
    (hdel : pod.DeletionTimestamp = none)
    (hmounts : allMounts pod = [vol])
    (htoken : stringsContains vol.Name "default-token" = false)
    (hshare : InArray vol.Name (shareVolumesOf pod) = true)
    (hvols : pod.Volumes = pre ++ ⟨vol.Name, some ⟨claim⟩⟩ :: post)
    (huniq : ∀ u ∈ pre ++ post, u.Name ≠ vol.Name)
    (hpvc : env.getPVC ns claim = some pvc)
    (huid : pathElement pod.UID) (hname : pathElement pvc.VolumeName)
    (hstat : env.stat ("/var/lib/kubelet/pods/" ++ pod.UID ++ "/volumes/kubernetes.io~csi/"
      ++ pvc.VolumeName ++ "/mount") ≠ StatResult.notExist)
    (hsucc : ∀ t c, (exec t c).2.err = none)
    (hm : (exec (exec s (Cmd.mkdir vol.MountPath)).1 (Cmd.hasMount vol.MountPath)).2.stdout = "")
    (he : (exec (exec (exec (exec s (Cmd.mkdir vol.MountPath)).1
            (Cmd.hasMount vol.MountPath)).1
            (Cmd.mountBind ("/var/lib/kubelet/pods/" ++ pod.UID
              ++ "/volumes/kubernetes.io~csi/" ++ pvc.VolumeName ++ "/mount") vol.MountPath)).1
          (Cmd.hasNFSItem vol.MountPath)).2.stdout = "") :
    (syncHandler exec env key (start s)).2 = none
      ∧ (syncHandler exec env key (start s)).1.panicked = false
      ∧ (syncHandler exec env key (start s)).1.log
        = [Action.exec (Cmd.mkdir vol.MountPath),
           Action.exec (Cmd.hasMount vol.MountPath),
           Action.exec (Cmd.mountBind ("/var/lib/kubelet/pods/" ++ pod.UID
             ++ "/volumes/kubernetes.io~csi/" ++ pvc.VolumeName ++ "/mount") vol.MountPath),
           Action.exec (Cmd.hasNFSItem vol.MountPath),
           Action.exec (Cmd.addNFSItem (vol.MountPath ++ "\t*(rw,sync,fsid=0,no_subtree_check)")),
           Action.exec Cmd.exportFs,
           Action.event pod.Namespace pod.Name EventTypeNormal SuccessSynced
             MessageResourceSynced]
      ∧ argvs (syncHandler exec env key (start s)).1.log
        = [["mkdir", "-p", vol.MountPath],
           ["sh", "-c", "mount|grep -w " ++ vol.MountPath],
           ["mount", "-o", "bind", "/var/lib/kubelet/pods/" ++ pod.UID
             ++ "/volumes/kubernetes.io~csi/" ++ pvc.VolumeName ++ "/mount", vol.MountPath],
           ["sh", "-c", "grep -w '" ++ vol.MountPath ++ "' /etc/exports "],
           ["sh", "-c", "echo '" ++ (vol.MountPath ++ "\t*(rw,sync,fsid=0,no_subtree_check)")
             ++ "' >> /etc/exports"],
           ["exportfs", "-r"]] := by
  have hvol : pod.Volumes ≠ [] := by rw [hvols]; simp
  have hloop : volumePathLoop env ns pod.UID vol pod.Volumes ""
      = some ("/var/lib/kubelet/pods/" ++ pod.UID ++ "/volumes/kubernetes.io~csi/"
          ++ pvc.VolumeName ++ "/mount") := by
    rw [hvols, volumePathLoop_unique env ns pod.UID vol pre post claim pvc "" huniq hpvc,
      pathJoin_csi pod.UID pvc.VolumeName huid hname]
  have hne : "/var/lib/kubelet/pods/" ++ pod.UID ++ "/volumes/kubernetes.io~csi/"
      ++ pvc.VolumeName ++ "/mount" ≠ "" := by
    intro h
    have := congrArg String.data h
    simp at this
  have hb := backing_of_path env ns pod vol _ htoken hloop hne hstat
  have hstep : syncVolumeMounts exec env ns pod (shareVolumesOf pod) (allMounts pod) (start s)
      = ⟨(exec (exec (exec (exec (exec s (Cmd.mkdir vol.MountPath)).1
            (Cmd.hasMount vol.MountPath)).1
            (Cmd.mountBind ("/var/lib/kubelet/pods/" ++ pod.UID
              ++ "/volumes/kubernetes.io~csi/" ++ pvc.VolumeName ++ "/mount") vol.MountPath)).1
            (Cmd.hasNFSItem vol.MountPath)).1
            (Cmd.addNFSItem (nfsItemOf vol.MountPath))).1,
         [Action.exec (Cmd.mkdir vol.MountPath),
           Action.exec (Cmd.hasMount vol.MountPath),
           Action.exec (Cmd.mountBind ("/var/lib/kubelet/pods/" ++ pod.UID
             ++ "/volumes/kubernetes.io~csi/" ++ pvc.VolumeName ++ "/mount") vol.MountPath),
           Action.exec (Cmd.hasNFSItem vol.MountPath),
           Action.exec (Cmd.addNFSItem (nfsItemOf vol.MountPath))], false⟩ := by
    rw [hmounts]
    simp only [syncVolumeMounts]
    rw [syncVolumeMount_eq_backing, hb]
    simp [applyDirective, createOrMaintain, ensureExport, Mkdir, HasMount, HasNFSItem,
      MountBind, AddNFSItem, Run.call, hshare, hdel, hsucc, hm, he, start]
  rw [syncHandler_found exec env key ns name pod (start s) hkey hpod hrun hvol rfl, hstep]
  simp [ExportFs, Run.call, Run.emit, nfsItemOf, argvs, Cmd.argv]

/-- C10 (witness): scenario A on `tableExec`, where the appended line is
`/data/cache\t*(rw,sync,fsid=0,no_subtree_check)`. -/
theorem scenario_A_sequence_witness :
    (syncHandler tableExec (envOf cachePod StatResult.ok) "default/web" (start ⟨[], []⟩)).2 = none
      ∧ (syncHandler tableExec (envOf cachePod StatResult.ok) "default/web"
          (start ⟨[], []⟩)).1.panicked = false
      ∧ (syncHandler tableExec (envOf cachePod StatResult.ok) "default/web" (start ⟨[], []⟩)).1.log
        = [Action.exec (Cmd.mkdir "/data/cache"),
           Action.exec (Cmd.hasMount "/data/cache"),
           Action.exec (Cmd.mountBind
             "/var/lib/kubelet/pods/uid-1/volumes/kubernetes.io~csi/pv-cache/mount" "/data/cache"),
           Action.exec (Cmd.hasNFSItem "/data/cache"),
           Action.exec (Cmd.addNFSItem "/data/cache\t*(rw,sync,fsid=0,no_subtree_check)"),
           Action.exec Cmd.exportFs,
           Action.event "default" "web" "Normal" "Synced" "Add nfs share path success."]
      ∧ argvs (syncHandler tableExec (envOf cachePod StatResult.ok) "default/web"
          (start ⟨[], []⟩)).1.log
        = [["mkdir", "-p", "/data/cache"],
           ["sh", "-c", "mount|grep -w /data/cache"],
           ["mount", "-o", "bind",
             "/var/lib/kubelet/pods/uid-1/volumes/kubernetes.io~csi/pv-cache/mount", "/data/cache"],
           ["sh", "-c", "grep -w '/data/cache' /etc/exports "],
           ["sh", "-c", "echo '/data/cache\t*(rw,sync,fsid=0,no_subtree_check)' >> /etc/exports"],
           ["exportfs", "-r"]] :=
  scenario_A_sequence tableExec (envOf cachePod StatResult.ok) "default/web" "default" "web"
    cachePod ⟨[], []⟩ ⟨"cache", "/data/cache"⟩ [] [] "cache" ⟨"pv-cache"⟩ rfl rfl
    (by decide) (by decide) (by decide) (by decide) (by decide) (by decide) (by decide)
    (by decide) ⟨by decide, by decide, by decide, by decide⟩
    ⟨by decide, by decide, by decide, by decide⟩ (by decide)
    (fun t c => by cases c <;> rfl) (by decide) (by decide)

end K8sNfs
